import Mathlib

/-!
Verification of the `multipart_form_data::downloader` component
(src/multipart_form_data/downloader.hpp).

The downloader decodes a multipart/form-data body incrementally from a byte
stream.  We give a shallow embedding: bytes are `Char` lists (the C++ code
works on `std::string` buffers), the stream is a list of chunks (each chunk is
what one `read_some` delivers), the filesystem is an association list from
paths to file contents, and the two execution modes (async continuation
chaining / sync direct style) are translated separately and related by a
theorem.  `size_t` arithmetic that can wrap is modelled by `sub64`.
Every recursive function is fuel-based; `none`/`Except.error` on fuel
exhaustion never occurs for the fuel values actually supplied.
-/

set_option maxRecDepth 40000

namespace MFD

/-- Unsigned 64-bit modulus, for `size_t` subtraction. -/
def W64 : Nat := 18446744073709551616

/-- Wrapping `size_t` subtraction: `(a - b) mod 2^64` for `a, b < 2^64`. -/
def sub64 (a b : Nat) : Nat := (a + (W64 - b % W64)) % W64

/-- Boolean prefix test on character lists. -/
def isPre : List Char → List Char → Bool
  | [], _ => true
  | _ :: _, [] => false
  | a :: as, b :: bs => a == b && isPre as bs

/-- `std::string::find(pat)`: index of the first occurrence of `pat`, if any. -/
def findSubstr (pat : List Char) : List Char → Option Nat
  | [] => if isPre pat [] then some 0 else none
  | c :: t => if isPre pat (c :: t) then some 0 else (findSubstr pat t).map (· + 1)

/-- `find(pat) != npos`. -/
def containsSubstr (hay pat : List Char) : Bool := (findSubstr pat hay).isSome

/-- `std::string_view::rfind(c)`: index of the last occurrence of `c`, if any. -/
def rfindChar (c : Char) : List Char → Option Nat
  | [] => none
  | a :: t =>
    match rfindChar c t with
    | some i => some (i + 1)
    | none => if a = c then some 0 else none

/-- Error codes surfaced by the downloader (the `boost` error codes used by
the source, plus a generic transport error used for mid-stream failures). -/
inductive ECode where
  | invalidArgument
  | notFound
  | badDescriptor
  | eof
  | connectionReset
  deriving DecidableEq, Repr

/-- Decidable equality for `Except`, used to evaluate path-resolution
results on concrete inputs. -/
instance {α β : Type} [DecidableEq α] [DecidableEq β] : DecidableEq (Except α β)
  | Except.error x, Except.error y =>
    if h : x = y then Decidable.isTrue (by rw [h])
    else Decidable.isFalse (by intro hx; exact h (by simpa using hx))
  | Except.error _, Except.ok _ => Decidable.isFalse (by intro hx; exact Except.noConfusion hx)
  | Except.ok _, Except.error _ => Decidable.isFalse (by intro hx; exact Except.noConfusion hx)
  | Except.ok x, Except.ok y =>
    if h : x = y then Decidable.isTrue (by rw [h])
    else Decidable.isFalse (by intro hx; exact h (by simpa using hx))

/-- Instrumentation events recording the file-handle and result-list
side effects of a run, in order. -/
inductive Event where
  | openF (p : List Char)
  | closeF (p : List Char)
  | write (p : List Char) (data : List Char)
  | deleteF (p : List Char)
  | push (p : List Char)
  | pop (p : List Char)
  | bodyDone (p : List Char)
  deriving DecidableEq, Repr

/-- Filesystem lookup (path to file contents). -/
def fsGet : List (List Char × List Char) → List Char → Option (List Char)
  | [], _ => none
  | (k, v) :: t, p => if k = p then some v else fsGet t p

/-- Filesystem update: create or overwrite the file at `p`. -/
def fsSet : List (List Char × List Char) → List Char → List Char → List (List Char × List Char)
  | [], p, v => [(p, v)]
  | (k, w) :: t, p, v => if k = p then (p, v) :: t else (k, w) :: fsSet t p v

/-- Filesystem removal (`std::filesystem::remove`). -/
def fsErase : List (List Char × List Char) → List Char → List (List Char × List Char)
  | [], _ => []
  | (k, w) :: t, p => if k = p then t else (k, w) :: fsErase t p

/-- Existence test (`std::filesystem::exists`). -/
def fsExists (fs : List (List Char × List Char)) (p : List Char) : Bool :=
  (fsGet fs p).isSome

/-- Append bytes to the file at `p` (`std::ofstream::write` on the handle
opened at `p`; the handle's file always exists once opened). -/
def fsAppend (fs : List (List Char × List Char)) (p data : List Char) :
    List (List Char × List Char) :=
  match fsGet fs p with
  | some v => fsSet fs p (v ++ data)
  | none => fsSet fs p data

/-- The `settings` struct.  `on_read_file_header_handler` returns a path for a
filename (`none` models an undefined handler).  `on_read_file_body_handler` is
side-effect-only, so only its definedness matters to the model; its invocation
is recorded as a trace event. -/
structure Settings where
  packets_size : Nat
  output_directory : List Char
  on_read_file_header_handler : Option (List Char → List Char)
  on_read_file_body_handler : Bool

/-- The downloader state: the dynamic buffer's readable bytes
(`_buffer_storage`), the not-yet-delivered stream chunks, the error code the
stream reports once exhausted (`eof` for orderly shutdown, or a transport
error), the filesystem, paths on which `std::ofstream::open` fails, and the
member variables `_file_path`, `_file` (open flag), `_output_file_paths`,
`_boundary`, plus the instrumentation trace. -/
structure DState where
  buffer : List Char
  chunks : List (List Char)
  streamEnd : ECode
  fs : List (List Char × List Char)
  unopenable : List (List Char)
  file_path : List Char
  fileOpen : Bool
  output_file_paths : List (List Char)
  boundary : List Char
  trace : List Event
  deriving DecidableEq, Repr

/-- Fuel bound for the `read_until` fill loop: total stream bytes plus chunk
count plus one, which dominates the number of loop iterations. -/
def chunksMeasure (chunks : List (List Char)) : Nat :=
  chunks.foldr (fun c n => c.length + 1 + n) 0

/-- The fill loop of `boost::asio::read_until` on a `dynamic_string_buffer`
capped at `cap`: if the delimiter already occurs in the buffer, succeed with
the byte count up to and including its first occurrence; else if the buffer is
full, fail with `not_found`; else pull the next chunk (split if it exceeds the
remaining capacity), or report the stream-end error if no data remains. -/
def read_until_loop (cap : Nat) (delim : List Char) (streamEnd : ECode) :
    Nat → List Char → List (List Char) →
    Option ECode × Nat × List Char × List (List Char)
  | 0, buf, chunks => (some streamEnd, 0, buf, chunks)
  | fuel + 1, buf, chunks =>
    match findSubstr delim buf with
    | some i => (none, i + delim.length, buf, chunks)
    | none =>
      if cap ≤ buf.length then (some ECode.notFound, 0, buf, chunks)
      else
        match chunks with
        | [] => (some streamEnd, 0, buf, [])
        | c :: rest =>
          if c.length ≤ cap - buf.length then
            read_until_loop cap delim streamEnd fuel (buf ++ c) rest
          else
            read_until_loop cap delim streamEnd fuel
              (buf ++ c.take (cap - buf.length)) (c.drop (cap - buf.length) :: rest)

/-- `boost::asio::read_until(_stream, *_buffer, delim)` acting on the
downloader state. -/
def read_until (cap : Nat) (delim : List Char) (s : DState) :
    Option ECode × Nat × DState :=
  match read_until_loop cap delim s.streamEnd (chunksMeasure s.chunks + 1) s.buffer s.chunks with
  | (e, bt, buf, chunks) => (e, bt, { s with buffer := buf, chunks := chunks })

/-- `std::filesystem::path::filename()` (component after the last separator). -/
def pathFilename (p : List Char) : List Char :=
  match rfindChar '/' p with
  | some i => p.drop (i + 1)
  | none => p

/-- Directory prefix kept by `std::filesystem::path::replace_filename`. -/
def pathDirPrefix (p : List Char) : List Char :=
  match rfindChar '/' p with
  | some i => p.take (i + 1)
  | none => []

/-- `std::filesystem::path::replace_filename(newf)`. -/
def pathReplaceFilename (p newf : List Char) : List Char :=
  pathDirPrefix p ++ newf

/-- `std::filesystem::path::extension()`: from the last dot of the filename,
empty for `..`, for a dotless filename, or when the only dot is leading. -/
def pathExtension (p : List Char) : List Char :=
  let f := pathFilename p
  if f = ('.' :: '.' :: []) then []
  else
    match rfindChar '.' f with
    | none => []
    | some i => if i = 0 then [] else f.drop i

/-- `std::filesystem::path::stem()`: the filename up to its extension. -/
def pathStem (p : List Char) : List Char :=
  let f := pathFilename p
  if f = ('.' :: '.' :: []) then f
  else
    match rfindChar '.' f with
    | none => f
    | some i => if i = 0 then f else f.take i

/-- `std::filesystem::path::operator/`: append with a separator (none added
when the left side is empty or already ends with one). -/
def pathAppend (dir name : List Char) : List Char :=
  if dir = [] then name
  else if dir.getLast? = some '/' then dir ++ name
  else dir ++ '/' :: name

/-- `std::string::replace(pos, count, r)`. -/
def stringReplace (s : List Char) (pos count : Nat) (r : List Char) : List Char :=
  s.take pos ++ r ++ s.drop (pos + count)

/-- The `while (std::filesystem::exists(_file_path))` loop of
`generate_file_path`: on each collision, splice the incremented copy number
into `new_file_name` and rebuild the path.  `ex` is the existence oracle
(`Except.error` models a thrown `filesystem_error`, caught in the source and
turned into failure). -/
def generate_file_path_go (ex : List Char → Except Unit Bool) :
    Nat → List Char → List Char → Nat → Nat → Except Unit (List Char)
  | 0, _, _, _, _ => Except.error ()
  | fuel + 1, file_path, new_file_name, start, copy_number =>
    match ex file_path with
    | Except.error _ => Except.error ()
    | Except.ok false => Except.ok file_path
    | Except.ok true =>
      let nfn := stringReplace new_file_name start (new_file_name.length - start - 1)
        ((Nat.repr (copy_number + 1)).toList)
      let fp := pathReplaceFilename file_path (nfn ++ pathExtension file_path)
      generate_file_path_go ex fuel fp nfn start (copy_number + 1)

/-- `generate_file_path(file_name)`: candidate `output_directory / file_name`;
on collision append `(1)` to the stem and increment until a free path is
found; an oracle error yields failure (`false` in the source, reported as
`bad_descriptor` by the callers). -/
def generate_file_path (fuel : Nat) (ex : List Char → Except Unit Bool)
    (output_directory file_name : List Char) : Except Unit (List Char) :=
  let fp0 := pathAppend output_directory file_name
  match ex fp0 with
  | Except.error _ => Except.error ()
  | Except.ok false => Except.ok fp0
  | Except.ok true =>
    let nfn := pathStem fp0 ++ ('(' :: '1' :: ')' :: [])
    let start := nfn.length - 2
    let fp1 := pathReplaceFilename fp0 (nfn ++ pathExtension fp0)
    generate_file_path_go ex fuel fp1 nfn start 1

/-- Delimiter between a part header and its data (`"\r\n\r\n"`). -/
def crlf2 : List Char := '\r' :: '\n' :: '\r' :: '\n' :: []

/-- The `filename="` token searched in part headers. -/
def filenameKey : List Char := ("filename=").toList ++ '"' :: []

/-- The `boundary=` token searched in the content type. -/
def boundaryKey : List Char := ("boundary=").toList

/-- The `multipart/form-data` token searched in the content type. -/
def mfdKey : List Char := ("multipart/form-data").toList

/-- The epilogue marker compared against the whole buffer (`"--\r\n"`). -/
def epilogueMark : List Char := '-' :: '-' :: '\r' :: '\n' :: []

/-- The path-resolution block shared verbatim by the async and sync header
processors: consult `on_read_file_header_handler` if defined, fall back to
`generate_file_path` when it is undefined or returns an empty path. -/
def resolve_file_path (cfg : Settings) (fs : List (List Char × List Char))
    (file_name : List Char) : Except Unit (List Char) :=
  match cfg.on_read_file_header_handler with
  | some h =>
    let hp := h file_name
    if hp = [] then
      generate_file_path (fs.length + 2)
        (fun p => Except.ok (fsExists fs p)) cfg.output_directory file_name
    else Except.ok hp
  | none =>
    generate_file_path (fs.length + 2)
      (fun p => Except.ok (fsExists fs p)) cfg.output_directory file_name

mutual

/-- `sync_process_file_header`, translated statement by statement.  Result
`none` is fuel exhaustion; otherwise the final state and error code. -/
def sync_process_file_header (cfg : Settings) :
    Nat → Option ECode → Nat → DState → Option (DState × Option ECode)
  | 0, _, _, _ => none
  | fuel + 1, ec, bt, s =>
    match ec with
    | some e => some (s, some e)
    | none =>
      let file_header_data := s.buffer.take bt
      match findSubstr filenameKey file_header_data with
      | none => some (s, some ECode.notFound)
      | some file_name_position =>
        let rest := file_header_data.drop (file_name_position + 10)
        match rfindChar '"' rest with
        | none => some (s, some ECode.notFound)
        | some q =>
          let file_name := rest.take q
          match resolve_file_path cfg s.fs file_name with
          | Except.error _ => some (s, some ECode.badDescriptor)
          | Except.ok file_path =>
            if file_path ∈ s.unopenable then
              some ({ s with file_path := file_path }, some ECode.invalidArgument)
            else
              let s1 : DState :=
                { s with
                  file_path := file_path
                  fileOpen := true
                  fs := fsSet s.fs file_path []
                  output_file_paths := s.output_file_paths ++ [file_path]
                  buffer := s.buffer.drop bt
                  trace := s.trace ++ [Event.openF file_path, Event.push file_path] }
              match read_until cfg.packets_size s1.boundary s1 with
              | (ec2, bt2, s2) => sync_process_file_body cfg fuel ec2 bt2 s2

/-- `sync_process_file_body`, translated statement by statement.  The write
lengths use wrapping `size_t` subtraction exactly as the source, and the
epilogue test compares the whole post-consume buffer with `"--\r\n"`. -/
def sync_process_file_body (cfg : Settings) :
    Nat → Option ECode → Nat → DState → Option (DState × Option ECode)
  | 0, _, _, _ => none
  | fuel + 1, ec, bt, s =>
    if ec = some ECode.notFound then
      let wlen := sub64 s.buffer.length s.boundary.length
      let data := s.buffer.take wlen
      let s1 : DState :=
        { s with
          fs := fsAppend s.fs s.file_path data
          buffer := s.buffer.drop wlen
          trace := s.trace ++ [Event.write s.file_path data] }
      match read_until cfg.packets_size s1.boundary s1 with
      | (ec2, bt2, s2) => sync_process_file_body cfg fuel ec2 bt2 s2
    else
      match ec with
      | some e =>
        let back := s.output_file_paths.getLastD []
        let s1 : DState :=
          { s with
            fileOpen := false
            fs := fsErase s.fs back
            output_file_paths := s.output_file_paths.dropLast
            trace := s.trace ++ [Event.closeF s.file_path, Event.deleteF back, Event.pop back] }
        some (s1, some e)
      | none =>
        let wlen := sub64 (sub64 bt s.boundary.length) 4
        let data := s.buffer.take wlen
        let s1 : DState :=
          { s with
            fs := fsAppend s.fs s.file_path data
            fileOpen := false
            buffer := s.buffer.drop bt
            trace := s.trace ++ [Event.write s.file_path data, Event.closeF s.file_path]
              ++ (if cfg.on_read_file_body_handler then
                    [Event.bodyDone (s.output_file_paths.getLastD [])] else []) }
        if s1.buffer = epilogueMark then
          some (s1, none)
        else
          match read_until cfg.packets_size crlf2 s1 with
          | (ec2, bt2, s2) => sync_process_file_header cfg fuel ec2 bt2 s2

end

/-- `sync_prepare_files_processing`: clear the result, seed the buffer with the
caller's leftover bytes, extract the boundary, consume through the first
boundary, then read the first header. -/
def sync_prepare_files_processing (cfg : Settings) (fuel : Nat)
    (content_type input_buffer : List Char) (s : DState) :
    Option (DState × Option ECode) :=
  let s0 : DState := { s with output_file_paths := [], buffer := input_buffer }
  match findSubstr boundaryKey content_type with
  | none => some ({ s0 with output_file_paths := [] }, some ECode.notFound)
  | some boundary_position =>
    let s1 : DState := { s0 with boundary := content_type.drop (boundary_position + 9) }
    match read_until cfg.packets_size s1.boundary s1 with
    | (ec, bt, s2) =>
      match ec with
      | some e => some ({ s2 with output_file_paths := [] }, some e)
      | none =>
        let s3 : DState := { s2 with buffer := s2.buffer.drop bt }
        match read_until cfg.packets_size crlf2 s3 with
        | (ec2, bt2, s4) => sync_process_file_header cfg fuel ec2 bt2 s4

/-- `sync_download`: reject non-multipart content types without touching the
stream, otherwise run the preparation and state machine.  The result pairs the
final state (whose `output_file_paths` is the returned path list) with the
error code. -/
def sync_download (cfg : Settings) (fuel : Nat) (content_type : List Char)
    (input_buffer : List Char) (chunks : List (List Char)) (streamEnd : ECode)
    (fs0 : List (List Char × List Char)) (unopenable : List (List Char)) :
    Option (DState × Option ECode) :=
  let s0 : DState :=
    { buffer := [], chunks := chunks, streamEnd := streamEnd, fs := fs0
      unopenable := unopenable, file_path := [], fileOpen := false
      output_file_paths := [], boundary := [], trace := [] }
  if containsSubstr content_type mfdKey then
    sync_prepare_files_processing cfg fuel content_type input_buffer s0
  else
    some (s0, some ECode.invalidArgument)

mutual

/-- `async_process_file_header`: the suspend-based translation.  `handler` is
the completion handler; invoking it at a return site of the source becomes
producing `handler e paths` next to the final state.  Timeout bookkeeping
(`expires_after` / `expires_never`) and the keep-alive `self_ptr` have no
observable effect in the model. -/
def async_process_file_header {α : Type} (cfg : Settings)
    (handler : Option ECode → List (List Char) → α) :
    Nat → Option ECode → Nat → DState → Option (DState × α)
  | 0, _, _, _ => none
  | fuel + 1, ec, bt, s =>
    match ec with
    | some e => some (s, handler (some e) s.output_file_paths)
    | none =>
      let file_header_data := s.buffer.take bt
      match findSubstr filenameKey file_header_data with
      | none => some (s, handler (some ECode.notFound) s.output_file_paths)
      | some file_name_position =>
        let rest := file_header_data.drop (file_name_position + 10)
        match rfindChar '"' rest with
        | none => some (s, handler (some ECode.notFound) s.output_file_paths)
        | some q =>
          let file_name := rest.take q
          match resolve_file_path cfg s.fs file_name with
          | Except.error _ => some (s, handler (some ECode.badDescriptor) s.output_file_paths)
          | Except.ok file_path =>
            if file_path ∈ s.unopenable then
              some ({ s with file_path := file_path },
                handler (some ECode.invalidArgument) s.output_file_paths)
            else
              let s1 : DState :=
                { s with
                  file_path := file_path
                  fileOpen := true
                  fs := fsSet s.fs file_path []
                  output_file_paths := s.output_file_paths ++ [file_path]
                  buffer := s.buffer.drop bt
                  trace := s.trace ++ [Event.openF file_path, Event.push file_path] }
              match read_until cfg.packets_size s1.boundary s1 with
              | (ec2, bt2, s2) => async_process_file_body cfg handler fuel ec2 bt2 s2

/-- `async_process_file_body`: the suspend-based translation of the body
phase, invoking `handler` at each completion site of the source. -/
def async_process_file_body {α : Type} (cfg : Settings)
    (handler : Option ECode → List (List Char) → α) :
    Nat → Option ECode → Nat → DState → Option (DState × α)
  | 0, _, _, _ => none
  | fuel + 1, ec, bt, s =>
    if ec = some ECode.notFound then
      let wlen := sub64 s.buffer.length s.boundary.length
      let data := s.buffer.take wlen
      let s1 : DState :=
        { s with
          fs := fsAppend s.fs s.file_path data
          buffer := s.buffer.drop wlen
          trace := s.trace ++ [Event.write s.file_path data] }
      match read_until cfg.packets_size s1.boundary s1 with
      | (ec2, bt2, s2) => async_process_file_body cfg handler fuel ec2 bt2 s2
    else
      match ec with
      | some e =>
        let back := s.output_file_paths.getLastD []
        let s1 : DState :=
          { s with
            fileOpen := false
            fs := fsErase s.fs back
            output_file_paths := s.output_file_paths.dropLast
            trace := s.trace ++ [Event.closeF s.file_path, Event.deleteF back, Event.pop back] }
        some (s1, handler (some e) s1.output_file_paths)
      | none =>
        let wlen := sub64 (sub64 bt s.boundary.length) 4
        let data := s.buffer.take wlen
        let s1 : DState :=
          { s with
            fs := fsAppend s.fs s.file_path data
            fileOpen := false
            buffer := s.buffer.drop bt
            trace := s.trace ++ [Event.write s.file_path data, Event.closeF s.file_path]
              ++ (if cfg.on_read_file_body_handler then
                    [Event.bodyDone (s.output_file_paths.getLastD [])] else []) }
        if s1.buffer = epilogueMark then
          some (s1, handler none s1.output_file_paths)
        else
          match read_until cfg.packets_size crlf2 s1 with
          | (ec2, bt2, s2) => async_process_file_header cfg handler fuel ec2 bt2 s2

end

/-- `async_prepare_files_processing`: clear, seed, extract the boundary, then
the two chained reads of the source's nested lambdas. -/
def async_prepare_files_processing {α : Type} (cfg : Settings)
    (handler : Option ECode → List (List Char) → α) (fuel : Nat)
    (content_type input_buffer : List Char) (s : DState) : Option (DState × α) :=
  let s0 : DState := { s with output_file_paths := [], buffer := input_buffer }
  match findSubstr boundaryKey content_type with
  | none => some (s0, handler (some ECode.notFound) [])
  | some boundary_position =>
    let s1 : DState := { s0 with boundary := content_type.drop (boundary_position + 9) }
    match read_until cfg.packets_size s1.boundary s1 with
    | (ec, bt, s2) =>
      match ec with
      | some e => some (s2, handler (some e) [])
      | none =>
        let s3 : DState := { s2 with buffer := s2.buffer.drop bt }
        match read_until cfg.packets_size crlf2 s3 with
        | (ec2, bt2, s4) => async_process_file_header cfg handler fuel ec2 bt2 s4

/-- `async_download`: content-type validation, then the async pipeline.  The
pair holds the final state and the handler's value. -/
def async_download {α : Type} (cfg : Settings) (fuel : Nat) (content_type : List Char)
    (input_buffer : List Char) (chunks : List (List Char)) (streamEnd : ECode)
    (fs0 : List (List Char × List Char)) (unopenable : List (List Char))
    (handler : Option ECode → List (List Char) → α) : Option (DState × α) :=
  let s0 : DState :=
    { buffer := [], chunks := chunks, streamEnd := streamEnd, fs := fs0
      unopenable := unopenable, file_path := [], fileOpen := false
      output_file_paths := [], boundary := [], trace := [] }
  if containsSubstr content_type mfdKey then
    async_prepare_files_processing cfg handler fuel content_type input_buffer s0
  else
    some (s0, handler (some ECode.invalidArgument) [])

/-! ### Write-handle discipline over the event trace -/

/-- Replay an event trace through the write-handle discipline: at most one
handle open at a time, closes and writes must name the open handle's path,
deletions and returns only happen with the handle closed.  The result is the
open handle after the trace, or `none` (outer) on a violation. -/
def traceEnd : Option (List Char) → List Event → Option (Option (List Char))
  | h, [] => some h
  | none, Event.openF p :: t => traceEnd (some p) t
  | some _, Event.openF _ :: _ => none
  | some q, Event.closeF p :: t => if p = q then traceEnd none t else none
  | none, Event.closeF _ :: _ => none
  | some q, Event.write p _ :: t => if p = q then traceEnd (some q) t else none
  | none, Event.write _ _ :: _ => none
  | none, Event.deleteF _ :: t => traceEnd none t
  | some _, Event.deleteF _ :: _ => none
  | h, Event.push _ :: t => traceEnd h t
  | h, Event.pop _ :: t => traceEnd h t
  | h, Event.bodyDone _ :: t => traceEnd h t

/-! ### Synthetic multipart bodies and the round-trip argument -/

/-- CRLF. -/
def crlf : List Char := '\r' :: '\n' :: []

/-- One part of a synthetic body: a filename and the file's bytes. -/
structure Part where
  name : List Char
  content : List Char
  deriving DecidableEq, Repr

/-- The Content-Disposition header line of a synthetic part. -/
def partHeader (p : Part) : List Char :=
  ("Content-Disposition: form-data; name=").toList ++ '"' :: 'f' :: '"' :: []
    ++ ("; filename=").toList ++ '"' :: (p.name ++ '"' :: [])

/-- The bytes following the first boundary: for each part CRLF, its header,
CRLF CRLF, its content, CRLF `--` boundary; then the closing `--` CRLF. -/
def partsTail (bnd : List Char) : List Part → List Char
  | [] => '-' :: '-' :: '\r' :: '\n' :: []
  | p :: ps =>
    crlf ++ partHeader p ++ crlf2 ++ p.content ++ crlf
      ++ '-' :: '-' :: (bnd ++ partsTail bnd ps)

/-- A full synthetic multipart body: `--` boundary, then the parts. -/
def synthBody (bnd : List Char) (parts : List Part) : List Char :=
  '-' :: '-' :: (bnd ++ partsTail bnd parts)

/-- The filename parse performed on a header block by the processors:
`find("filename=\"")`, then `rfind('"')` on the remainder. -/
def headerFileName (fhd : List Char) : Option (List Char) :=
  match findSubstr filenameKey fhd with
  | none => none
  | some pos =>
    match rfindChar '"' (fhd.drop (pos + 10)) with
    | none => none
    | some q => some ((fhd.drop (pos + 10)).take q)

/-- Output path automatically chosen for a part when its candidate is free. -/
def partPath (dir : List Char) (p : Part) : List Char :=
  pathAppend dir p.name

/-- Well-formedness of the parts of a synthetic body for boundary `bnd`:
at each stage the first header terminator and the first boundary
occurrence are the intended ones, and the filename parse recovers the
part's name. -/
def wfParts (bnd : List Char) : List Part → Bool
  | [] => true
  | p :: ps =>
    decide (findSubstr crlf2 (partsTail bnd (p :: ps)) = some (2 + (partHeader p).length))
    && decide (headerFileName (crlf ++ partHeader p ++ crlf2) = some p.name)
    && decide (findSubstr bnd
        (p.content ++ crlf ++ '-' :: '-' :: (bnd ++ partsTail bnd ps))
        = some (p.content.length + 4))
    && wfParts bnd ps

/-- Well-formedness of the whole synthetic body: the boundary's first
occurrence is the one opening the first delimiter, and the parts are
well-formed. -/
def wfBody (bnd : List Char) (parts : List Part) : Bool :=
  decide (findSubstr bnd (synthBody bnd parts) = some 2) && wfParts bnd parts

/-- Net filesystem effect of downloading the parts: each part's file is
created and filled with its content, in order. -/
def writeAll (dir : List Char) (fs : List (List Char × List Char)) :
    List Part → List (List Char × List Char)
  | [] => fs
  | p :: ps => writeAll dir (fsSet fs (partPath dir p) p.content) ps

/-- The boundary extraction performed by both `async_prepare_files_processing`
and `sync_prepare_files_processing` (downloader.hpp lines 114-123 and
408-420): find the first `boundary=`, take everything after it. -/
def extractBoundary (content_type : List Char) : Option (List Char) :=
  match findSubstr boundaryKey content_type with
  | none => none
  | some boundary_position => some (content_type.drop (boundary_position + 9))

/-- The state computed by the boundary-found branch of the body processors,
after writing `bytes_transferred - boundary_length - 4` bytes (in `size_t`
arithmetic), closing the file, invoking the body callback when defined, and
consuming the transferred bytes. -/
def bodyDoneState (cfg : Settings) (bt : Nat) (s : DState) : DState :=
  { s with
    fs := fsAppend s.fs s.file_path (s.buffer.take (sub64 (sub64 bt s.boundary.length) 4))
    fileOpen := false
    buffer := s.buffer.drop bt
    trace := s.trace ++ [Event.write s.file_path
        (s.buffer.take (sub64 (sub64 bt s.boundary.length) 4)),
        Event.closeF s.file_path]
      ++ (if cfg.on_read_file_body_handler then
            [Event.bodyDone (s.output_file_paths.getLastD [])] else []) }

def cfgW : Settings :=
  { packets_size := 1000
    output_directory := '.' :: []
    on_read_file_header_handler := none
    on_read_file_body_handler := false }

def ctW : List Char := ("multipart/form-data; boundary=zz").toList

def bndW : List Char := 'z' :: 'z' :: []

def partsW : List Part :=
  [⟨("a.txt").toList, ("12345").toList⟩, ⟨("b.bin").toList, 'X' :: 'Y' :: []⟩]

def c2bytes1 : List Char :=
  ("--zz\r\nfilename=\"a\"\r\n\r\n1\r\n--zz--\r\n").toList

def c2bytes2 : List Char :=
  ("filename=\"b\"\r\n\r\n2\r\n--zz--\r\n").toList

def c8bytes1 : List Char :=
  ("--zz\r\nfilename=\"a\"\r\n\r\n1\r\n--zz--").toList

def c8bytes2 : List Char := '\r' :: '\n' :: []

/-- The mid-body error fixture: one completed part `./done.txt` and one
in-flight part `./part.bin` whose body is being awaited. -/
def c4sW : DState :=
  { buffer := []
    chunks := []
    streamEnd := ECode.eof
    fs := [(('.' :: '/' :: ("done.txt").toList), ("DD").toList),
      (('.' :: '/' :: ("part.bin").toList), ("ZZ").toList)]
    unopenable := []
    file_path := '.' :: '/' :: ("part.bin").toList
    fileOpen := true
    output_file_paths := [('.' :: '/' :: ("done.txt").toList),
      ('.' :: '/' :: ("part.bin").toList)]
    boundary := ("zz").toList
    trace := [] }

/-- The state a failed facade validation returns: everything empty. -/
def s0W : DState :=
  { buffer := []
    chunks := []
    streamEnd := ECode.eof
    fs := []
    unopenable := []
    file_path := []
    fileOpen := false
    output_file_paths := []
    boundary := []
    trace := [] }

/-- The cap-hit fixture: a buffer holding six data bytes and the boundary. -/
def c7sW : DState :=
  { buffer := ("ABCDEF").toList ++ ("zz").toList
    chunks := []
    streamEnd := ECode.eof
    fs := [(('.' :: '/' :: ("f.bin").toList), [])]
    unopenable := []
    file_path := '.' :: '/' :: ("f.bin").toList
    fileOpen := true
    output_file_paths := [('.' :: '/' :: ("f.bin").toList)]
    boundary := ("zz").toList
    trace := [] }

/-- A settings record with a small 64-byte packet cap, used to exercise the
cap-hit flush on a body larger than the cap. -/
def cfgB : Settings :=
  { packets_size := 64
    output_directory := '.' :: []
    on_read_file_header_handler := none
    on_read_file_body_handler := false }

/-- One part of 59 `A` bytes; its synthetic body (137 bytes) exceeds the
64-byte cap of `cfgB`. -/
def c1partsW : List Part := [⟨("a.txt").toList, List.replicate 59 'A'⟩]

/-- The bytes actually stored for that part: the content with a leaked
delimiter suffix. -/
def c1leak : List Char :=
  List.replicate 59 'A' ++ ("\r\n--zz--\r\n").toList

/-! ## Theorems -/

/-! ### Lemmas about prefix testing and substring search -/

theorem isPre_length {pat hay : List Char} (h : isPre pat hay = true) :
    pat.length ≤ hay.length := by
  induction pat generalizing hay with
  | nil => simp
  | cons a as ih =>
    cases hay with
    | nil => simp [isPre] at h
    | cons b bs =>
      simp only [isPre, Bool.and_eq_true] at h
      simpa using ih h.2

theorem isPre_append_left {pat hay : List Char} (r : List Char)
    (h : isPre pat hay = true) : isPre pat (hay ++ r) = true := by
  induction pat generalizing hay with
  | nil => simp [isPre]
  | cons a as ih =>
    cases hay with
    | nil => simp [isPre] at h
    | cons b bs =>
      simp only [isPre, Bool.and_eq_true] at h
      simpa [isPre, h.1] using ih h.2

theorem isPre_append_eq {pat hay : List Char} (r : List Char)
    (hlen : pat.length ≤ hay.length) : isPre pat (hay ++ r) = isPre pat hay := by
  induction pat generalizing hay with
  | nil => simp [isPre]
  | cons a as ih =>
    cases hay with
    | nil => simp at hlen
    | cons b bs =>
      simp only [List.length_cons, Nat.add_le_add_iff_right] at hlen
      simp [isPre, ih (by simpa using hlen)]

theorem findSubstr_length {pat hay : List Char} {p : Nat}
    (h : findSubstr pat hay = some p) : p + pat.length ≤ hay.length := by
  induction hay generalizing p with
  | nil =>
    simp only [findSubstr] at h
    split at h
    · rename_i hp
      cases h
      simpa using isPre_length hp
    · cases h
  | cons c t ih =>
    simp only [findSubstr] at h
    split at h
    · rename_i hp
      cases h
      simpa using isPre_length hp
    · rcases Option.map_eq_some'.mp h with ⟨q, hq, rfl⟩
      have := ih hq
      simp only [List.length_cons]
      omega

theorem findSubstr_pos_true {pat hay : List Char} (hp : isPre pat hay = true) :
    findSubstr pat hay = some 0 := by
  cases hay with
  | nil => simp [findSubstr, hp]
  | cons c t => simp [findSubstr, hp]

theorem findSubstr_cons_false {pat : List Char} {c : Char} {t : List Char}
    (hp : isPre pat (c :: t) = false) :
    findSubstr pat (c :: t) = (findSubstr pat t).map (· + 1) := by
  simp [findSubstr, hp]

theorem findSubstr_append_left {pat buf : List Char} {i : Nat} (r : List Char)
    (h : findSubstr pat buf = some i) : findSubstr pat (buf ++ r) = some i := by
  induction buf generalizing i with
  | nil =>
    simp only [findSubstr] at h
    split at h
    · rename_i hp
      cases h
      have hpat : pat = [] := by
        cases pat with
        | nil => rfl
        | cons a as => simp [isPre] at hp
      subst hpat
      exact findSubstr_pos_true rfl
    · cases h
  | cons c t ih =>
    by_cases hp : isPre pat (c :: t) = true
    · rw [findSubstr_pos_true hp] at h
      cases h
      have hpe : isPre pat (c :: (t ++ r)) = true := by
        have := isPre_append_left r hp
        simpa using this
      rw [List.cons_append]
      exact findSubstr_pos_true hpe
    · rw [findSubstr_cons_false (by simpa using hp)] at h
      rcases Option.map_eq_some'.mp h with ⟨q, hq, rfl⟩
      have hq' := findSubstr_length hq
      have hlen : pat.length ≤ (c :: t).length := by
        simp only [List.length_cons]; omega
      have hpe : isPre pat (c :: (t ++ r)) = false := by
        have := isPre_append_eq r hlen
        simp only [List.cons_append] at this
        rw [this]
        simpa using hp
      rw [List.cons_append, findSubstr_cons_false hpe, ih hq, Option.map_some']

theorem findSubstr_append_none {pat buf : List Char} (r : List Char)
    (h : findSubstr pat (buf ++ r) = none) : findSubstr pat buf = none := by
  cases hb : findSubstr pat buf with
  | none => rfl
  | some i => rw [findSubstr_append_left r hb] at h; cases h

theorem findSubstr_of_append {pat buf r : List Char} {p : Nat}
    (h : findSubstr pat (buf ++ r) = some p) (hin : p + pat.length ≤ buf.length) :
    findSubstr pat buf = some p := by
  induction buf generalizing p with
  | nil =>
    simp only [List.length_nil, Nat.le_zero] at hin
    have hp : p = 0 := by omega
    have hpat : pat = [] := List.length_eq_zero.mp (by omega)
    subst hpat hp
    exact findSubstr_pos_true rfl
  | cons c t ih =>
    by_cases hp : isPre pat (c :: t) = true
    · have hpe : isPre pat (c :: (t ++ r)) = true := by
        have := isPre_append_left r hp
        simpa using this
      rw [List.cons_append, findSubstr_pos_true hpe] at h
      cases h
      exact findSubstr_pos_true hp
    · have hbig : pat.length ≤ (c :: t).length := by
        simp only [List.length_cons] at hin ⊢
        omega
      have hpe : isPre pat (c :: (t ++ r)) = false := by
        have := isPre_append_eq r hbig
        simp only [List.cons_append] at this
        rw [this]
        simpa using hp
      rw [List.cons_append, findSubstr_cons_false hpe] at h
      rcases Option.map_eq_some'.mp h with ⟨q, hq, rfl⟩
      simp only [List.length_cons] at hin
      rw [findSubstr_cons_false (by simpa using hp), ih hq (by omega), Option.map_some']

/-! ### Behaviour of `read_until` in terms of the flattened remaining bytes -/

theorem chunksMeasure_cons (c : List Char) (rest : List (List Char)) :
    chunksMeasure (c :: rest) = c.length + 1 + chunksMeasure rest := rfl

theorem read_until_loop_found (cap : Nat) (delim : List Char) (se : ECode) :
    ∀ fuel (buf : List Char) (chunks : List (List Char)) (p : Nat),
    chunksMeasure chunks < fuel →
    findSubstr delim (buf ++ chunks.flatten) = some p →
    p + delim.length ≤ cap →
    ∃ buf2 chunks2,
      read_until_loop cap delim se fuel buf chunks = (none, p + delim.length, buf2, chunks2)
      ∧ buf2 ++ chunks2.flatten = buf ++ chunks.flatten
      ∧ p + delim.length ≤ buf2.length := by
  intro fuel
  induction fuel with
  | zero => intro buf chunks p hm; omega
  | succ fuel ih =>
    intro buf chunks p hm hfind hcap
    cases hb : findSubstr delim buf with
    | some i =>
      have : findSubstr delim (buf ++ chunks.flatten) = some i :=
        findSubstr_append_left _ hb
      rw [hfind] at this
      cases this
      refine ⟨buf, chunks, ?_, rfl, findSubstr_length hb⟩
      simp [read_until_loop, hb]
    | none =>
      have hcapbuf : ¬ cap ≤ buf.length := by
        intro hle
        have := findSubstr_of_append hfind (by omega)
        rw [hb] at this
        cases this
      cases chunks with
      | nil =>
        simp only [List.flatten_nil, List.append_nil] at hfind
        rw [hb] at hfind
        cases hfind
      | cons c rest =>
        rw [chunksMeasure_cons] at hm
        by_cases hfit : c.length ≤ cap - buf.length
        · have hm2 : chunksMeasure rest < fuel := by omega
          have hflat : (buf ++ c) ++ rest.flatten = buf ++ (c :: rest).flatten := by
            simp
          obtain ⟨b2, c2, heq, hfl, hlen⟩ := ih (buf ++ c) rest p hm2
            (by rw [hflat]; exact hfind) hcap
          refine ⟨b2, c2, ?_, by rw [hfl, hflat], hlen⟩
          simp only [read_until_loop, hb, hcapbuf, if_false, hfit, if_true]
          exact heq
        · have hroom : 0 < cap - buf.length := by omega
          have hm2 : chunksMeasure (c.drop (cap - buf.length) :: rest) < fuel := by
            rw [chunksMeasure_cons]
            rw [List.length_drop]
            omega
          have hflat : (buf ++ c.take (cap - buf.length)) ++
              (c.drop (cap - buf.length) :: rest).flatten = buf ++ (c :: rest).flatten := by
            simp only [List.flatten_cons, List.append_assoc]
            rw [← List.append_assoc (c.take (cap - buf.length)), List.take_append_drop]
          obtain ⟨b2, c2, heq, hfl, hlen⟩ := ih (buf ++ c.take (cap - buf.length))
            (c.drop (cap - buf.length) :: rest) p hm2 (by rw [hflat]; exact hfind) hcap
          refine ⟨b2, c2, ?_, by rw [hfl, hflat], hlen⟩
          simp only [read_until_loop, hb, hcapbuf, if_false, hfit]
          exact heq

theorem read_until_loop_eof (cap : Nat) (delim : List Char) (se : ECode) :
    ∀ fuel (buf : List Char) (chunks : List (List Char)),
    chunksMeasure chunks < fuel →
    findSubstr delim (buf ++ chunks.flatten) = none →
    (buf ++ chunks.flatten).length < cap →
    read_until_loop cap delim se fuel buf chunks =
      (some se, 0, buf ++ chunks.flatten, []) := by
  intro fuel
  induction fuel with
  | zero => intro buf chunks hm; omega
  | succ fuel ih =>
    intro buf chunks hm hfind hlen
    have hb : findSubstr delim buf = none := findSubstr_append_none _ hfind
    have hcapbuf : ¬ cap ≤ buf.length := by
      simp only [List.length_append] at hlen
      omega
    cases chunks with
    | nil =>
      simp [read_until_loop, hb, hcapbuf]
    | cons c rest =>
      rw [chunksMeasure_cons] at hm
      have hL : (buf ++ (c :: rest).flatten).length =
          buf.length + (c.length + rest.flatten.length) := by
        simp [List.flatten_cons]
      have hfit : c.length ≤ cap - buf.length := by
        rw [hL] at hlen
        omega
      have hflat : (buf ++ c) ++ rest.flatten = buf ++ (c :: rest).flatten := by simp
      have := ih (buf ++ c) rest (by omega) (by rw [hflat]; exact hfind)
        (by rw [hflat]; exact hlen)
      simp only [read_until_loop, hb, hcapbuf, if_false, hfit, if_true]
      rw [this, hflat]

theorem read_until_found {cap : Nat} {delim : List Char} {s : DState} {p : Nat}
    (hfind : findSubstr delim (s.buffer ++ s.chunks.flatten) = some p)
    (hcap : p + delim.length ≤ cap) :
    ∃ buf2 chunks2,
      read_until cap delim s =
        (none, p + delim.length, { s with buffer := buf2, chunks := chunks2 })
      ∧ buf2 ++ chunks2.flatten = s.buffer ++ s.chunks.flatten
      ∧ p + delim.length ≤ buf2.length := by
  obtain ⟨b2, c2, heq, hfl, hlen⟩ := read_until_loop_found cap delim s.streamEnd
    (chunksMeasure s.chunks + 1) s.buffer s.chunks p (by omega) hfind hcap
  exact ⟨b2, c2, by simp [read_until, heq], hfl, hlen⟩

theorem read_until_eof {cap : Nat} {delim : List Char} {s : DState}
    (hfind : findSubstr delim (s.buffer ++ s.chunks.flatten) = none)
    (hlen : (s.buffer ++ s.chunks.flatten).length < cap) :
    read_until cap delim s =
      (some s.streamEnd, 0,
        { s with buffer := s.buffer ++ s.chunks.flatten, chunks := [] }) := by
  have := read_until_loop_eof cap delim s.streamEnd (chunksMeasure s.chunks + 1)
    s.buffer s.chunks (by omega) hfind hlen
  simp [read_until, this]

/-! ### Wrapping subtraction -/

theorem sub64_eq {a b : Nat} (hba : b ≤ a) (ha : a < W64) : sub64 a b = a - b := by
  have hb : b < W64 := by omega
  unfold sub64
  rw [Nat.mod_eq_of_lt hb]
  have h1 : a + (W64 - b) = (a - b) + W64 := by omega
  rw [h1, Nat.add_mod_right, Nat.mod_eq_of_lt (by omega)]

theorem sub64_wraps {a b : Nat} (hab : a < b) (hb : b < W64) : sub64 a b = a + W64 - b := by
  unfold sub64
  rw [Nat.mod_eq_of_lt hb]
  have h2 : a + (W64 - b) = a + W64 - b := by omega
  rw [h2]
  exact Nat.mod_eq_of_lt (by omega)

/-! ### The async pipeline refines the sync pipeline -/

theorem match_ru_map {α : Type} (ru : Option ECode × Nat × DState)
    (gA : Option ECode → Nat → DState → Option (DState × α))
    (g : Option ECode → Nat → DState → Option (DState × Option ECode))
    (f : DState × Option ECode → DState × α)
    (h : ∀ ec bt s, gA ec bt s = (g ec bt s).map f) :
    (match ru with | (ec2, bt2, s2) => gA ec2 bt2 s2)
      = (match ru with | (ec2, bt2, s2) => g ec2 bt2 s2).map f := by
  rcases ru with ⟨a, b, c⟩
  exact h a b c

theorem async_sync_steps {α : Type} (cfg : Settings)
    (handler : Option ECode → List (List Char) → α) :
    ∀ fuel : Nat,
      (∀ ec bt s, async_process_file_header cfg handler fuel ec bt s =
          (sync_process_file_header cfg fuel ec bt s).map
            (fun r => (r.1, handler r.2 r.1.output_file_paths)))
      ∧ (∀ ec bt s, async_process_file_body cfg handler fuel ec bt s =
          (sync_process_file_body cfg fuel ec bt s).map
            (fun r => (r.1, handler r.2 r.1.output_file_paths))) := by
  intro fuel
  induction fuel with
  | zero => exact ⟨fun _ _ _ => rfl, fun _ _ _ => rfl⟩
  | succ fuel ih =>
    refine ⟨fun ec bt s => ?_, fun ec bt s => ?_⟩
    · cases ec with
      | some e => rfl
      | none =>
        rw [async_process_file_header, sync_process_file_header]
        cases hf : findSubstr filenameKey (s.buffer.take bt) with
        | none => simp [hf]
        | some file_name_position =>
          simp only [hf]
          cases hq : rfindChar '"' ((s.buffer.take bt).drop (file_name_position + 10)) with
          | none => simp [hq]
          | some q =>
            simp only [hq]
            cases hpr : resolve_file_path cfg s.fs
                (((s.buffer.take bt).drop (file_name_position + 10)).take q) with
            | error e => simp [hpr]
            | ok file_path =>
              simp only [hpr]
              by_cases hop : file_path ∈ s.unopenable
              · simp [hop]
              · simp only [hop, if_false, if_true]
                rcases hru : read_until cfg.packets_size s.boundary
                  { s with
                    file_path := file_path
                    fileOpen := true
                    fs := fsSet s.fs file_path []
                    output_file_paths := s.output_file_paths ++ [file_path]
                    buffer := s.buffer.drop bt
                    trace := s.trace ++ [Event.openF file_path, Event.push file_path] }
                  with ⟨ec2, bt2, s2⟩
                simp only [hru]
                exact ih.2 ec2 bt2 s2
    · cases ec with
      | some e =>
        rw [async_process_file_body.eq_2, sync_process_file_body.eq_2]
        by_cases hnf : e = ECode.notFound
        · subst hnf
          rw [if_pos rfl, if_pos rfl]
          exact ih.2 _ _ _
        · rw [if_neg (by simpa using hnf), if_neg (by simpa using hnf)]
          rfl
      | none =>
        rw [async_process_file_body.eq_3, sync_process_file_body.eq_3]
        have hne : ¬ ((none : Option ECode) = some ECode.notFound) := by simp
        rw [if_neg hne, if_neg hne]
        simp only []
        by_cases hep : s.buffer.drop bt = epilogueMark
        · rw [if_pos hep, if_pos hep]
          rfl
        · rw [if_neg hep, if_neg hep]
          exact ih.1 _ _ _

theorem read_until_output (cap : Nat) (delim : List Char) (s : DState) :
    (read_until cap delim s).2.2.output_file_paths = s.output_file_paths := by
  unfold read_until
  rcases h : read_until_loop cap delim s.streamEnd (chunksMeasure s.chunks + 1)
    s.buffer s.chunks with ⟨e, bt, b, c⟩
  rfl

theorem update_output_eq (s : DState) (v : List (List Char))
    (h : s.output_file_paths = v) : { s with output_file_paths := v } = s := by
  cases s
  cases h
  rfl

theorem async_sync_prepare {α : Type} (cfg : Settings)
    (handler : Option ECode → List (List Char) → α) (fuel : Nat)
    (ct ib : List Char) (s : DState) :
    async_prepare_files_processing cfg handler fuel ct ib s =
      (sync_prepare_files_processing cfg fuel ct ib s).map
        (fun r => (r.1, handler r.2 r.1.output_file_paths)) := by
  unfold async_prepare_files_processing sync_prepare_files_processing
  cases hb : findSubstr boundaryKey ct with
  | none => simp [hb]
  | some boundary_position =>
    simp only [hb]
    rcases hru : read_until cfg.packets_size (ct.drop (boundary_position + 9))
        { s with
          output_file_paths := []
          buffer := ib
          boundary := ct.drop (boundary_position + 9) } with ⟨ec, bt, s2⟩
    have hout : s2.output_file_paths = [] := by
      have h0 := read_until_output cfg.packets_size (ct.drop (boundary_position + 9))
        { s with
          output_file_paths := []
          buffer := ib
          boundary := ct.drop (boundary_position + 9) }
      rw [hru] at h0
      exact h0
    simp only [hru]
    cases ec with
    | some e =>
      rw [update_output_eq s2 [] hout]
      simp [hout]
    | none =>
      rcases hru2 : read_until cfg.packets_size crlf2
          { s2 with buffer := s2.buffer.drop bt } with ⟨ec2, bt2, s4⟩
      simp only [hru2]
      exact (async_sync_steps cfg handler fuel).1 ec2 bt2 s4

theorem async_sync_download {α : Type} (cfg : Settings) (fuel : Nat)
    (content_type input_buffer : List Char) (chunks : List (List Char))
    (streamEnd : ECode) (fs0 : List (List Char × List Char))
    (unopenable : List (List Char))
    (handler : Option ECode → List (List Char) → α) :
    async_download cfg fuel content_type input_buffer chunks streamEnd fs0 unopenable handler =
      (sync_download cfg fuel content_type input_buffer chunks streamEnd fs0 unopenable).map
        (fun r => (r.1, handler r.2 r.1.output_file_paths)) := by
  unfold async_download sync_download
  by_cases hm : containsSubstr content_type mfdKey
  · simp only [hm, if_true]
    exact async_sync_prepare cfg handler fuel content_type input_buffer _
  · simp only [hm, Bool.false_eq_true, if_false]
    rfl

theorem traceEnd_append (u : List Event) :
    ∀ (t : List Event) (h : Option (List Char)),
    traceEnd h (t ++ u) = (traceEnd h t).bind (fun h2 => traceEnd h2 u) := by
  intro t
  induction t with
  | nil => intro h; simp [traceEnd]
  | cons ev rest ih =>
    intro h
    cases ev with
    | openF p =>
      cases h with
      | none => simpa [traceEnd] using ih (some p)
      | some q => simp [traceEnd]
    | closeF p =>
      cases h with
      | none => simp [traceEnd]
      | some q =>
        by_cases hpq : p = q
        · simpa [traceEnd, hpq] using ih none
        · simp [traceEnd, hpq]
    | write p d =>
      cases h with
      | none => simp [traceEnd]
      | some q =>
        by_cases hpq : p = q
        · simpa [traceEnd, hpq] using ih (some q)
        · simp [traceEnd, hpq]
    | deleteF p =>
      cases h with
      | none => simpa [traceEnd] using ih none
      | some q => simp [traceEnd]
    | push p => simpa [traceEnd] using ih h
    | pop p => simpa [traceEnd] using ih h
    | bodyDone p => simpa [traceEnd] using ih h

theorem read_until_shape (cap : Nat) (delim : List Char) (s : DState) :
    ∃ b c, (read_until cap delim s).2.2 = { s with buffer := b, chunks := c } := by
  unfold read_until
  rcases h : read_until_loop cap delim s.streamEnd (chunksMeasure s.chunks + 1)
    s.buffer s.chunks with ⟨e, bt, b, c⟩
  exact ⟨b, c, rfl⟩

theorem trace_ok_steps (cfg : Settings) : ∀ fuel : Nat,
    (∀ ec bt s s' e', s.fileOpen = false →
      traceEnd none s.trace = some none →
      sync_process_file_header cfg fuel ec bt s = some (s', e') →
      traceEnd none s'.trace = some none ∧ s'.fileOpen = false)
    ∧ (∀ ec bt s s' e', s.fileOpen = true →
      traceEnd none s.trace = some (some s.file_path) →
      sync_process_file_body cfg fuel ec bt s = some (s', e') →
      traceEnd none s'.trace = some none ∧ s'.fileOpen = false) := by
  intro fuel
  induction fuel with
  | zero =>
    constructor
    · intro ec bt s s' e' _ _ hrun
      cases hrun
    · intro ec bt s s' e' _ _ hrun
      cases hrun
  | succ fuel ih =>
    constructor
    · intro ec bt s s' e' hopen htr hrun
      cases ec with
      | some e =>
        rw [sync_process_file_header] at hrun
        cases hrun
        exact ⟨htr, hopen⟩
      | none =>
        rw [sync_process_file_header] at hrun
        cases hf : findSubstr filenameKey (s.buffer.take bt) with
        | none =>
          rw [hf] at hrun
          cases hrun
          exact ⟨htr, hopen⟩
        | some file_name_position =>
          cases hq : rfindChar '"' ((s.buffer.take bt).drop (file_name_position + 10)) with
          | none =>
            simp only [hf, hq] at hrun
            cases hrun
            exact ⟨htr, hopen⟩
          | some q =>
            cases hpr : resolve_file_path cfg s.fs
                (((s.buffer.take bt).drop (file_name_position + 10)).take q) with
            | error e2 =>
              simp only [hf, hq, hpr] at hrun
              cases hrun
              exact ⟨htr, hopen⟩
            | ok file_path =>
              simp only [hf, hq, hpr] at hrun
              by_cases hop : file_path ∈ s.unopenable
              · rw [if_pos hop] at hrun
                cases hrun
                exact ⟨htr, hopen⟩
              · rw [if_neg hop] at hrun
                set s1 : DState :=
                  { s with
                    file_path := file_path
                    fileOpen := true
                    fs := fsSet s.fs file_path []
                    output_file_paths := s.output_file_paths ++ [file_path]
                    buffer := s.buffer.drop bt
                    trace := s.trace ++ [Event.openF file_path, Event.push file_path] }
                  with hs1
                obtain ⟨b2, c2, hsh⟩ := read_until_shape cfg.packets_size s1.boundary s1
                have htr1 : traceEnd none s1.trace = some (some file_path) := by
                  rw [hs1]
                  simp only []
                  rw [traceEnd_append, htr]
                  simp [traceEnd]
                rcases hru : read_until cfg.packets_size s1.boundary s1 with ⟨ec2, bt2, s2⟩
                rw [hru] at hrun hsh
                simp only [] at hsh hrun
                refine (ih.2 ec2 bt2 s2 s' e' ?_ ?_ hrun)
                · rw [hsh]
                · rw [hsh]
                  simpa using htr1
    · intro ec bt s s' e' hopen htr hrun
      by_cases hnf : ec = some ECode.notFound
      · subst hnf
        rw [sync_process_file_body.eq_2, if_pos rfl] at hrun
        simp only [] at hrun
        set s1 : DState :=
          { s with
            fs := fsAppend s.fs s.file_path
              (s.buffer.take (sub64 s.buffer.length s.boundary.length))
            buffer := s.buffer.drop (sub64 s.buffer.length s.boundary.length)
            trace := s.trace ++ [Event.write s.file_path
              (s.buffer.take (sub64 s.buffer.length s.boundary.length))] }
          with hs1
        obtain ⟨b2, c2, hsh⟩ := read_until_shape cfg.packets_size s1.boundary s1
        have htr1 : traceEnd none s1.trace = some (some s.file_path) := by
          rw [hs1]
          simp only []
          rw [traceEnd_append, htr]
          simp [traceEnd]
        rcases hru : read_until cfg.packets_size s1.boundary s1 with ⟨ec2, bt2, s2⟩
        rw [hru] at hrun hsh
        simp only [] at hsh hrun
        refine (ih.2 ec2 bt2 s2 s' e' ?_ ?_ hrun)
        · rw [hsh]
          exact hopen
        · rw [hsh]
          simpa using htr1
      · cases ec with
        | some e =>
          rw [sync_process_file_body.eq_2,
            if_neg (by simpa using fun hx => hnf (by rw [hx]))] at hrun
          simp only [Option.some.injEq, Prod.mk.injEq] at hrun
          obtain ⟨h1, h2⟩ := hrun
          subst h1
          constructor
          · simp only []
            rw [traceEnd_append, htr]
            simp [traceEnd]
          · rfl
        | none =>
          rw [sync_process_file_body.eq_3,
            if_neg (show ¬ ((none : Option ECode) = some ECode.notFound) by simp)] at hrun
          simp only [] at hrun
          set s1 : DState :=
            { s with
              fs := fsAppend s.fs s.file_path
                (s.buffer.take (sub64 (sub64 bt s.boundary.length) 4))
              fileOpen := false
              buffer := s.buffer.drop bt
              trace := s.trace ++ [Event.write s.file_path
                  (s.buffer.take (sub64 (sub64 bt s.boundary.length) 4)),
                  Event.closeF s.file_path]
                ++ (if cfg.on_read_file_body_handler then
                      [Event.bodyDone (s.output_file_paths.getLastD [])] else []) }
            with hs1
          have htr1 : traceEnd none s1.trace = some none := by
            rw [hs1]
            simp only []
            rw [traceEnd_append, traceEnd_append, htr]
            by_cases hcb : cfg.on_read_file_body_handler
            · simp [traceEnd, hcb]
            · simp [traceEnd, hcb]
          by_cases hep : s1.buffer = epilogueMark
          · rw [if_pos hep] at hrun
            simp only [Option.some.injEq, Prod.mk.injEq] at hrun
            obtain ⟨h1, h2⟩ := hrun
            subst h1
            exact ⟨htr1, by rw [hs1]⟩
          · rw [if_neg hep] at hrun
            obtain ⟨b2, c2, hsh⟩ := read_until_shape cfg.packets_size crlf2 s1
            rcases hru : read_until cfg.packets_size crlf2 s1 with ⟨ec2, bt2, s2⟩
            rw [hru] at hrun hsh
            simp only [] at hsh hrun
            refine (ih.1 ec2 bt2 s2 s' e' ?_ ?_ hrun)
            · rw [hsh]
            · rw [hsh]
              simpa using htr1

theorem sync_prepare_trace (cfg : Settings) (fuel : Nat) (ct ib : List Char)
    (s s' : DState) (e' : Option ECode)
    (hopen : s.fileOpen = false) (htr : traceEnd none s.trace = some none)
    (hrun : sync_prepare_files_processing cfg fuel ct ib s = some (s', e')) :
    traceEnd none s'.trace = some none ∧ s'.fileOpen = false := by
  unfold sync_prepare_files_processing at hrun
  cases hb : findSubstr boundaryKey ct with
  | none =>
    rw [hb] at hrun
    cases hrun
    exact ⟨htr, hopen⟩
  | some boundary_position =>
    rw [hb] at hrun
    simp only [] at hrun
    obtain ⟨b2, c2, hsh⟩ := read_until_shape cfg.packets_size
      (ct.drop (boundary_position + 9))
      { s with
        output_file_paths := []
        buffer := ib
        boundary := ct.drop (boundary_position + 9) }
    rcases hru : read_until cfg.packets_size (ct.drop (boundary_position + 9))
        { s with
          output_file_paths := []
          buffer := ib
          boundary := ct.drop (boundary_position + 9) } with ⟨ec, bt, s2⟩
    rw [hru] at hrun hsh
    simp only [] at hsh hrun
    have h2t : traceEnd none s2.trace = some none := by
      rw [hsh]
      exact htr
    have h2o : s2.fileOpen = false := by
      rw [hsh]
      exact hopen
    cases ec with
    | some e =>
      cases hrun
      exact ⟨h2t, h2o⟩
    | none =>
      obtain ⟨b4, c4, hsh4⟩ := read_until_shape cfg.packets_size crlf2
        { s2 with buffer := s2.buffer.drop bt }
      rcases hru2 : read_until cfg.packets_size crlf2
          { s2 with buffer := s2.buffer.drop bt } with ⟨ec2, bt2, s4⟩
      rw [hru2] at hrun hsh4
      simp only [] at hsh4 hrun
      refine (trace_ok_steps cfg fuel).1 ec2 bt2 s4 s' e' ?_ ?_ hrun
      · rw [hsh4]
        exact h2o
      · rw [hsh4]
        exact h2t

theorem sync_download_trace (cfg : Settings) (fuel : Nat) (ct ib : List Char)
    (chunks : List (List Char)) (se : ECode) (fs0 : List (List Char × List Char))
    (un : List (List Char)) (s' : DState) (e' : Option ECode)
    (hrun : sync_download cfg fuel ct ib chunks se fs0 un = some (s', e')) :
    traceEnd none s'.trace = some none ∧ s'.fileOpen = false := by
  unfold sync_download at hrun
  split at hrun
  · refine sync_prepare_trace cfg fuel ct ib _ s' e' ?_ ?_ hrun
    · rfl
    · rfl
  · cases hrun
    exact ⟨rfl, rfl⟩

/-! #### Small facts about the filesystem model -/

theorem fsGet_fsSet_self (fs : List (List Char × List Char)) (k v : List Char) :
    fsGet (fsSet fs k v) k = some v := by
  induction fs with
  | nil => simp [fsSet, fsGet]
  | cons kv t ih =>
    rcases kv with ⟨k2, v2⟩
    by_cases hk : k2 = k
    · subst hk
      simp [fsSet, fsGet]
    · simp [fsSet, fsGet, hk, ih]

theorem fsGet_fsSet_other (fs : List (List Char × List Char)) (k v p : List Char)
    (h : p ≠ k) : fsGet (fsSet fs k v) p = fsGet fs p := by
  induction fs with
  | nil =>
    simp only [fsSet, fsGet]
    rw [if_neg (fun hkp => h hkp.symm)]
  | cons kv t ih =>
    rcases kv with ⟨k2, v2⟩
    by_cases hk : k2 = k
    · subst hk
      simp only [fsSet, if_pos rfl, fsGet]
      rw [if_neg (fun h2 => h h2.symm), if_neg (fun h2 => h h2.symm)]
    · simp only [fsSet, if_neg hk, fsGet]
      by_cases hp : k2 = p
      · rw [if_pos hp, if_pos hp]
      · rw [if_neg hp, if_neg hp]
        exact ih

theorem fsSet_fsSet (fs : List (List Char × List Char)) (k v w : List Char) :
    fsSet (fsSet fs k v) k w = fsSet fs k w := by
  induction fs with
  | nil => simp [fsSet]
  | cons kv t ih =>
    rcases kv with ⟨k2, v2⟩
    by_cases hk : k2 = k
    · subst hk
      simp [fsSet]
    · simp [fsSet, hk, ih]

theorem fsExists_fsSet_other (fs : List (List Char × List Char)) (k v p : List Char)
    (h : p ≠ k) : fsExists (fsSet fs k v) p = fsExists fs p := by
  unfold fsExists
  rw [fsGet_fsSet_other fs k v p h]

theorem fsAppend_after_create (fs : List (List Char × List Char)) (k d : List Char) :
    fsAppend (fsSet fs k []) k d = fsSet fs k d := by
  unfold fsAppend
  rw [fsGet_fsSet_self]
  simp only [List.nil_append]
  exact fsSet_fsSet fs k [] d

theorem writeAll_get_preserved (dir : List Char) (ps : List Part) :
    ∀ (fs : List (List Char × List Char)) (path : List Char),
    ¬ path ∈ ps.map (partPath dir) →
    fsGet (writeAll dir fs ps) path = fsGet fs path := by
  induction ps with
  | nil => intro fs path _; rfl
  | cons p t ih =>
    intro fs path hmem
    simp only [List.map_cons, List.mem_cons] at hmem
    push_neg at hmem
    rw [writeAll, ih _ _ hmem.2, fsGet_fsSet_other _ _ _ _ hmem.1]

/-! #### Prefix bookkeeping -/

theorem prefix_take {b x f : List Char} (h : b ++ x = f) {n : Nat}
    (hn : n ≤ b.length) : f.take n = b.take n := by
  subst h
  rw [List.take_append_eq_append_take]
  have : n - b.length = 0 := by omega
  rw [this]
  simp

theorem prefix_drop {b x f : List Char} (h : b ++ x = f) {n : Nat}
    (hn : n ≤ b.length) : f.drop n = b.drop n ++ x := by
  subst h
  rw [List.drop_append_eq_append_drop]
  have : n - b.length = 0 := by omega
  rw [this, List.drop_zero]

theorem append_take (a r : List Char) : (a ++ r).take a.length = a := by
  rw [List.take_append_eq_append_take]
  simp

theorem append_drop (a r : List Char) : (a ++ r).drop a.length = r := by
  rw [List.drop_append_eq_append_drop]
  simp

theorem append_drop_len (a r : List Char) (n : Nat) (hn : n = a.length) :
    (a ++ r).drop n = r := by
  rw [hn]
  exact append_drop a r

/-! #### Arithmetic for the body write length -/

theorem sub64_chain {bt blen : Nat} (h4 : blen + 4 ≤ bt) (hW : bt < W64) :
    sub64 (sub64 bt blen) 4 = bt - blen - 4 := by
  rw [sub64_eq (by omega) hW, sub64_eq (by omega) (by omega)]

/-- When the candidate path is free, `generate_file_path` returns it at once. -/
theorem generate_first_free (fuel : Nat) (ex : List Char → Except Unit Bool)
    (dir name : List Char) (h : ex (pathAppend dir name) = Except.ok false) :
    generate_file_path fuel ex dir name = Except.ok (pathAppend dir name) := by
  unfold generate_file_path
  simp only []
  rw [h]

/-- Main loop invariant: from the point where the machine is about to read the
next part header, a well-formed remaining stream yields exactly the remaining
parts' paths and contents, whatever the chunking of the remaining bytes. -/
theorem master_loop (cfg : Settings) (bnd dir : List Char)
    (hnh : cfg.on_read_file_header_handler = none)
    (hdir : cfg.output_directory = dir)
    (hW : cfg.packets_size < W64) :
    ∀ (ps : List Part) (fuel : Nat) (s : DState),
    wfParts bnd ps = true →
    s.buffer ++ s.chunks.flatten = partsTail bnd ps →
    s.boundary = bnd →
    (partsTail bnd ps).length < cfg.packets_size →
    (∀ p ∈ ps, fsExists s.fs (partPath dir p) = false) →
    (ps.map (partPath dir)).Nodup →
    (∀ p ∈ ps, ¬ partPath dir p ∈ s.unopenable) →
    2 * ps.length + 1 ≤ fuel →
    ∃ s' e',
      sync_process_file_header cfg fuel
        (read_until cfg.packets_size crlf2 s).1
        (read_until cfg.packets_size crlf2 s).2.1
        (read_until cfg.packets_size crlf2 s).2.2 = some (s', e')
      ∧ s'.output_file_paths = s.output_file_paths ++ ps.map (partPath dir)
      ∧ s'.fs = writeAll dir s.fs ps
      ∧ (e' = none ∨ e' = some s.streamEnd) := by
  intro ps
  induction ps with
  | nil =>
    intro fuel s hwf hflat hbnd hcap hfree hnodup hun hfuel
    have hfind : findSubstr crlf2 (s.buffer ++ s.chunks.flatten) = none := by
      rw [hflat, partsTail]
      decide
    have hlen : (s.buffer ++ s.chunks.flatten).length < cfg.packets_size := by
      rw [hflat]
      exact hcap
    have hru := @read_until_eof cfg.packets_size crlf2 s
      hfind hlen
    rw [hru]
    simp only []
    obtain ⟨f, rfl⟩ : ∃ f, fuel = f + 1 := ⟨fuel - 1, by omega⟩
    refine ⟨{ s with buffer := s.buffer ++ s.chunks.flatten, chunks := [] },
      some s.streamEnd, ?_, by simp, rfl, Or.inr rfl⟩
    rw [sync_process_file_header]
  | cons p ps ih =>
    intro fuel s hwf hflat hbnd hcap hfree hnodup hun hfuel
    rw [wfParts] at hwf
    simp only [Bool.and_eq_true, decide_eq_true_eq] at hwf
    obtain ⟨⟨⟨hwf1, hwf2⟩, hwf3⟩, hwfrest⟩ := hwf
    have hstage : partsTail bnd (p :: ps)
        = (crlf ++ partHeader p ++ crlf2)
          ++ (p.content ++ crlf ++ '-' :: '-' :: (bnd ++ partsTail bnd ps)) := by
      rw [partsTail]
      simp [List.append_assoc]
    have hpreLen : (crlf ++ partHeader p ++ crlf2).length
        = 2 + (partHeader p).length + crlf2.length := by
      simp only [List.length_append, crlf, crlf2, List.length_cons, List.length_nil]
    have hfind1 : findSubstr crlf2 (s.buffer ++ s.chunks.flatten)
        = some (2 + (partHeader p).length) := by
      rw [hflat]
      exact hwf1
    have hlen1 : 2 + (partHeader p).length + crlf2.length ≤ cfg.packets_size := by
      have h1 := findSubstr_length hwf1
      omega
    obtain ⟨b2, c2, hru1, hfl2, hblen2⟩ := read_until_found hfind1 hlen1
    rw [hru1]
    simp only []
    obtain ⟨f, rfl⟩ : ∃ f, fuel = f + 2 := ⟨fuel - 2, by simp only [List.length_cons] at hfuel; omega⟩
    rw [show f + 2 = (f + 1) + 1 from rfl, sync_process_file_header]
    have hflatstage : b2 ++ c2.flatten = partsTail bnd (p :: ps) := by
      rw [hfl2, hflat]
    have hbt : 2 + (partHeader p).length + crlf2.length
        = (crlf ++ partHeader p ++ crlf2).length := hpreLen.symm
    have htake1 : b2.take (2 + (partHeader p).length + crlf2.length)
        = crlf ++ partHeader p ++ crlf2 := by
      have h1 := prefix_take hflatstage (n := 2 + (partHeader p).length + crlf2.length)
        hblen2
      rw [← h1, hstage, hbt, append_take]
    simp only []
    rw [htake1]
    unfold headerFileName at hwf2
    cases hfp : findSubstr filenameKey (crlf ++ partHeader p ++ crlf2) with
    | none =>
      rw [hfp] at hwf2
      cases hwf2
    | some pos =>
      rw [hfp] at hwf2
      simp only [] at hwf2
      cases hqq : rfindChar '"' ((crlf ++ partHeader p ++ crlf2).drop (pos + 10)) with
      | none =>
        rw [hqq] at hwf2
        cases hwf2
      | some qi =>
        rw [hqq] at hwf2
        simp only [Option.some.injEq] at hwf2
        simp only []
        rw [hqq]
        simp only []
        rw [hwf2]
        simp only [resolve_file_path, hnh]
        rw [hdir]
        have hgen : generate_file_path (s.fs.length + 2)
            (fun q => Except.ok (fsExists s.fs q)) dir p.name
            = Except.ok (partPath dir p) := by
          have hx : (fun q => Except.ok (fsExists s.fs q) : List Char → Except Unit Bool)
              (pathAppend dir p.name) = Except.ok false := by
            simp only []
            rw [show fsExists s.fs (pathAppend dir p.name) = false from
              hfree p (List.mem_cons_self p ps)]
          have hgg := generate_first_free (s.fs.length + 2)
            (fun q => Except.ok (fsExists s.fs q)) dir p.name hx
          rw [hgg]
          rfl
        rw [hgen]
        simp only []
        rw [if_neg (hun p (List.mem_cons_self p ps))]
        have hdrop1 : b2.drop (2 + (partHeader p).length + crlf2.length) ++ c2.flatten
            = p.content ++ crlf ++ '-' :: '-' :: (bnd ++ partsTail bnd ps) := by
          have h1 := prefix_drop hflatstage
            (n := 2 + (partHeader p).length + crlf2.length) hblen2
          rw [← h1, hstage, hbt, append_drop]
        have hlen2 : p.content.length + 4 + bnd.length ≤ cfg.packets_size := by
          have h2 := findSubstr_length hwf3
          have h3 : (p.content ++ crlf ++ '-' :: '-' :: (bnd ++ partsTail bnd ps)).length
              ≤ (partsTail bnd (p :: ps)).length := by
            rw [hstage]
            simp only [List.length_append]
            omega
          omega
        rw [hbnd]
        obtain ⟨b4, c4, hru2, hfl4, hblen4⟩ := @read_until_found
          cfg.packets_size bnd
          { buffer := List.drop (2 + (partHeader p).length + crlf2.length) b2,
                  chunks := c2, streamEnd := s.streamEnd,
                  fs := fsSet s.fs (partPath dir p) [], unopenable := s.unopenable,
                  file_path := partPath dir p, fileOpen := true,
                  output_file_paths := s.output_file_paths ++ [partPath dir p],
                  boundary := bnd,
                  trace := s.trace ++ [Event.openF (partPath dir p),
                    Event.push (partPath dir p)] }
          (p.content.length + 4) (by exact hdrop1 ▸ hwf3) (by exact hlen2)
        rw [hru2]
        simp only []
        rw [sync_process_file_body.eq_3,
          if_neg (show ¬ ((none : Option ECode) = some ECode.notFound) by simp)]
        simp only []
        simp only [] at hfl4 hblen4
        rw [hdrop1] at hfl4
        have hWbt : p.content.length + 4 + bnd.length < W64 := by omega
        have hwlen : sub64 (sub64 (p.content.length + 4 + bnd.length) bnd.length) 4
            = p.content.length := by
          rw [sub64_chain (by omega) hWbt]
          omega
        rw [hwlen]
        have htake2 : b4.take p.content.length = p.content := by
          have h1 := prefix_take hfl4 (n := p.content.length) (by omega)
          rw [← h1, List.append_assoc, append_take]
        rw [htake2, fsAppend_after_create]
        have hdrop2 : b4.drop (p.content.length + 4 + bnd.length) ++ c4.flatten
            = partsTail bnd ps := by
          have h1 := prefix_drop hfl4 (n := p.content.length + 4 + bnd.length) (by omega)
          rw [← h1]
          have hsh2 : p.content ++ crlf ++ '-' :: '-' :: (bnd ++ partsTail bnd ps)
              = ((p.content ++ crlf) ++ ('-' :: '-' :: bnd)) ++ partsTail bnd ps := by
            simp [List.append_assoc]
          rw [hsh2]
          refine append_drop_len _ _ _ ?_
          simp only [List.length_append, List.length_cons, crlf, List.length_nil]
          omega
        by_cases hepi : List.drop (p.content.length + 4 + bnd.length) b4 = epilogueMark
        · rw [if_pos hepi]
          have hps : ps = [] := by
            cases ps with
            | nil => rfl
            | cons q qs =>
              exfalso
              have h5 := hdrop2
              rw [hepi, partsTail] at h5
              simp only [epilogueMark, crlf, List.cons_append, List.append_assoc,
                List.nil_append, List.cons.injEq] at h5
              exact absurd h5.1 (by decide)
          subst hps
          refine ⟨_, _, rfl, ?_, ?_, Or.inl rfl⟩
          · simp
          · simp [writeAll]
        · rw [if_neg hepi]
          have hnd := hnodup
          simp only [List.map_cons, List.nodup_cons] at hnd
          obtain ⟨s', e', heq, hout, hfs, herr⟩ := ih f
            { buffer := List.drop (p.content.length + 4 + bnd.length) b4, chunks := c4,
              streamEnd := s.streamEnd,
              fs := fsSet s.fs (partPath dir p) p.content, unopenable := s.unopenable,
              file_path := partPath dir p, fileOpen := false,
              output_file_paths := s.output_file_paths ++ [partPath dir p], boundary := bnd,
              trace := s.trace ++ [Event.openF (partPath dir p), Event.push (partPath dir p)] ++
                  [Event.write (partPath dir p) p.content, Event.closeF (partPath dir p)] ++
                if cfg.on_read_file_body_handler = true then
                  [Event.bodyDone ((s.output_file_paths ++ [partPath dir p]).getLastD [])]
                else [] }
            hwfrest (by exact hdrop2) rfl
            (by
              have h3 : (partsTail bnd ps).length ≤ (partsTail bnd (p :: ps)).length := by
                rw [hstage]
                simp only [List.length_append, List.length_cons]
                omega
              omega)
            (by
              intro r hr
              simp only []
              have hne2 : partPath dir r ≠ partPath dir p :=
                fun he => hnd.1 (he ▸ List.mem_map_of_mem (partPath dir) hr)
              rw [fsExists_fsSet_other _ _ _ _ hne2]
              exact hfree r (List.mem_cons_of_mem p hr))
            hnd.2
            (by
              intro r hr
              simp only []
              exact hun r (List.mem_cons_of_mem p hr))
            (by
              simp only [List.length_cons] at hfuel
              omega)
          refine ⟨s', e', by exact heq, ?_, ?_, ?_⟩
          · rw [hout]
            simp
          · rw [writeAll]
            exact hfs
          · exact herr

/-- Full-download version of the round-trip argument: a well-formed synthetic
body, however chunked, downloads to exactly its parts' paths and contents. -/
theorem sync_download_synth (cfg : Settings) (bnd dir : List Char) (parts : List Part)
    (ct ib : List Char) (chunks : List (List Char)) (se : ECode)
    (fs0 : List (List Char × List Char)) (un : List (List Char)) (fuel j : Nat)
    (hnh : cfg.on_read_file_header_handler = none)
    (hdir : cfg.output_directory = dir)
    (hmfd : containsSubstr ct mfdKey = true)
    (hj : findSubstr boundaryKey ct = some j)
    (hbnd : ct.drop (j + 9) = bnd)
    (hwf : wfBody bnd parts = true)
    (hflat : ib ++ chunks.flatten = synthBody bnd parts)
    (hcap : (synthBody bnd parts).length < cfg.packets_size)
    (hW : cfg.packets_size < W64)
    (hfree : ∀ p ∈ parts, fsExists fs0 (partPath dir p) = false)
    (hnodup : (parts.map (partPath dir)).Nodup)
    (hun : ∀ p ∈ parts, ¬ partPath dir p ∈ un)
    (hfuel : 2 * parts.length + 1 ≤ fuel) :
    ∃ s' e', sync_download cfg fuel ct ib chunks se fs0 un = some (s', e')
      ∧ s'.output_file_paths = parts.map (partPath dir)
      ∧ s'.fs = writeAll dir fs0 parts
      ∧ (e' = none ∨ e' = some se) := by
  rw [wfBody, Bool.and_eq_true, decide_eq_true_eq] at hwf
  obtain ⟨hwf0, hwfparts⟩ := hwf
  unfold sync_download
  rw [if_pos hmfd]
  unfold sync_prepare_files_processing
  rw [hj]
  simp only []
  rw [hbnd]
  have hfind0 : findSubstr bnd (ib ++ chunks.flatten) = some 2 := by
    rw [hflat]
    exact hwf0
  have hlen0 : 2 + bnd.length ≤ cfg.packets_size := by
    have h1 := findSubstr_length hwf0
    omega
  obtain ⟨b2, c2, hru1, hfl2, hblen2⟩ := @read_until_found
    cfg.packets_size bnd
    { buffer := ib, chunks := chunks, streamEnd := se, fs := fs0,
      unopenable := un, file_path := [], fileOpen := false,
      output_file_paths := [], boundary := bnd, trace := [] }
    2 (by exact hfind0) hlen0
  rw [hru1]
  simp only []
  simp only [] at hfl2 hblen2
  have hflat3 : b2.drop (2 + bnd.length) ++ c2.flatten = partsTail bnd parts := by
    have h1 := prefix_drop (hfl2.trans hflat) (n := 2 + bnd.length) hblen2
    rw [← h1]
    have hsh : synthBody bnd parts = ('-' :: '-' :: bnd) ++ partsTail bnd parts := by
      rw [synthBody]
      simp
    rw [hsh]
    refine append_drop_len _ _ _ ?_
    simp only [List.length_cons]
    omega
  have hcap3 : (partsTail bnd parts).length < cfg.packets_size := by
    have h1 : (partsTail bnd parts).length ≤ (synthBody bnd parts).length := by
      rw [synthBody]
      simp only [List.length_cons, List.length_append]
      omega
    omega
  obtain ⟨s', e', heq, hout, hfs, herr⟩ := master_loop cfg bnd dir hnh hdir hW parts fuel
    { buffer := List.drop (2 + bnd.length) b2, chunks := c2, streamEnd := se, fs := fs0,
      unopenable := un, file_path := [], fileOpen := false,
      output_file_paths := [], boundary := bnd, trace := [] }
    hwfparts (by exact hflat3) rfl hcap3 (by exact hfree) hnodup (by exact hun) hfuel
  refine ⟨s', e', by exact heq, by simpa using hout, by exact hfs, by exact herr⟩

/-! ### Remaining support lemmas for the claims -/

theorem append_take_len (a r : List Char) (n : Nat) (hn : n = a.length) :
    (a ++ r).take n = a := by
  rw [hn]
  exact append_take a r

theorem getLastD_append_single (l : List (List Char)) (a d : List Char) :
    (l ++ [a]).getLastD d = a := by
  induction l generalizing d with
  | nil => rfl
  | cons x t ih =>
    rw [List.cons_append, List.getLastD_cons]
    exact ih x

theorem fsGet_not_mem (fs : List (List Char × List Char)) (p : List Char)
    (h : ¬ p ∈ fs.map Prod.fst) : fsGet fs p = none := by
  induction fs with
  | nil => rfl
  | cons kv t ih =>
    rcases kv with ⟨k, v⟩
    simp only [List.map_cons, List.mem_cons] at h
    push_neg at h
    simp only [fsGet]
    rw [if_neg (fun hk => h.1 hk.symm)]
    exact ih h.2

theorem fsGet_fsErase_self (fs : List (List Char × List Char)) (p : List Char)
    (h : (fs.map Prod.fst).Nodup) : fsGet (fsErase fs p) p = none := by
  induction fs with
  | nil => rfl
  | cons kv t ih =>
    rcases kv with ⟨k, v⟩
    simp only [List.map_cons, List.nodup_cons] at h
    by_cases hk : k = p
    · subst hk
      simp only [fsErase, if_pos rfl]
      exact fsGet_not_mem t k h.1
    · simp only [fsErase, if_neg hk, fsGet]
      exact ih h.2

theorem writeAll_get (dir : List Char) :
    ∀ (ps : List Part) (fs : List (List Char × List Char)) (k : Nat) (hk : k < ps.length),
    (ps.map (partPath dir)).Nodup →
    fsGet (writeAll dir fs ps) (partPath dir (ps.get ⟨k, hk⟩))
      = some (ps.get ⟨k, hk⟩).content := by
  intro ps
  induction ps with
  | nil =>
    intro fs k hk
    exact absurd hk (by simp)
  | cons p t ih =>
    intro fs k hk hnd
    simp only [List.map_cons, List.nodup_cons] at hnd
    cases k with
    | zero =>
      rw [writeAll]
      simp only [List.get]
      rw [writeAll_get_preserved dir t _ _ hnd.1]
      exact fsGet_fsSet_self fs (partPath dir p) p.content
    | succ k2 =>
      rw [writeAll]
      exact ih _ k2 (by simpa using hk) hnd.2

theorem stringReplace_numeral (stem0 digits r : List Char) :
    stringReplace (stem0 ++ '(' :: (digits ++ ')' :: [])) (stem0.length + 1)
      ((stem0 ++ '(' :: (digits ++ ')' :: [])).length - (stem0.length + 1) - 1) r
      = stem0 ++ '(' :: (r ++ ')' :: []) := by
  unfold stringReplace
  have hsh : stem0 ++ '(' :: (digits ++ ')' :: [])
      = ((stem0 ++ '(' :: []) ++ digits) ++ ')' :: [] := by
    simp
  have hlen : (stem0 ++ '(' :: (digits ++ ')' :: [])).length
      = stem0.length + 1 + digits.length + 1 := by
    simp only [List.length_append, List.length_cons, List.length_nil]
    omega
  rw [hlen]
  have hidx : stem0.length + 1
      + (stem0.length + 1 + digits.length + 1 - (stem0.length + 1) - 1)
      = stem0.length + 1 + digits.length := by omega
  rw [hidx]
  have h1 : (stem0 ++ '(' :: (digits ++ ')' :: [])).take (stem0.length + 1)
      = stem0 ++ '(' :: [] := by
    have hform : stem0 ++ '(' :: (digits ++ ')' :: [])
        = (stem0 ++ '(' :: []) ++ (digits ++ ')' :: []) := by simp
    rw [hform]
    refine append_take_len _ _ _ ?_
    simp
  have h2 : (stem0 ++ '(' :: (digits ++ ')' :: [])).drop (stem0.length + 1 + digits.length)
      = ')' :: [] := by
    rw [hsh]
    refine append_drop_len _ _ _ ?_
    simp only [List.length_append, List.length_cons, List.length_nil]
  rw [h1, h2]
  simp

theorem c2_run_two_chunks :
    sync_download cfgW 9 ctW [] [c2bytes1, c2bytes2] ECode.eof [] []
      = some (
    { buffer := ("--\r\n").toList
      chunks := [c2bytes2]
      streamEnd := ECode.eof
      fs := [(("./a").toList, ("1").toList)]
      unopenable := ([] : List (List Char))
      file_path := ("./a").toList
      fileOpen := false
      output_file_paths := [("./a").toList]
      boundary := ("zz").toList
      trace := [Event.openF ("./a").toList,
        Event.push ("./a").toList,
        Event.write ("./a").toList ("1").toList,
        Event.closeF ("./a").toList] },
    none) := by
  unfold sync_download
  rw [if_pos (by decide : containsSubstr ctW mfdKey = true)]
  unfold sync_prepare_files_processing
  simp only []
  rw [(by decide : findSubstr boundaryKey ctW = some 21)]
  simp only []
  rw [(by decide : read_until cfgW.packets_size (ctW.drop (21 + 9))
    { buffer := ([] : List Char)
      chunks := [c2bytes1, c2bytes2]
      streamEnd := ECode.eof
      fs := ([] : List (List Char × List Char))
      unopenable := ([] : List (List Char))
      file_path := ([] : List Char)
      fileOpen := false
      output_file_paths := ([] : List (List Char))
      boundary := ctW.drop (21 + 9)
      trace := ([] : List Event) }
    = (none, 4,
    { buffer := ("--zz\r\nfilename=\"a\"\r\n\r\n1\r\n--zz--\r\n").toList
      chunks := [c2bytes2]
      streamEnd := ECode.eof
      fs := ([] : List (List Char × List Char))
      unopenable := ([] : List (List Char))
      file_path := ([] : List Char)
      fileOpen := false
      output_file_paths := ([] : List (List Char))
      boundary := ("zz").toList
      trace := ([] : List Event) }))]
  simp only []
  rw [(by decide : (("--zz\r\nfilename=\"a\"\r\n\r\n1\r\n--zz--\r\n").toList).drop 4 = ("\r\nfilename=\"a\"\r\n\r\n1\r\n--zz--\r\n").toList)]
  rw [(by decide : read_until cfgW.packets_size crlf2
    { buffer := ("\r\nfilename=\"a\"\r\n\r\n1\r\n--zz--\r\n").toList
      chunks := [c2bytes2]
      streamEnd := ECode.eof
      fs := ([] : List (List Char × List Char))
      unopenable := ([] : List (List Char))
      file_path := ([] : List Char)
      fileOpen := false
      output_file_paths := ([] : List (List Char))
      boundary := ("zz").toList
      trace := ([] : List Event) }
    = (none, 18,
    { buffer := ("\r\nfilename=\"a\"\r\n\r\n1\r\n--zz--\r\n").toList
      chunks := [c2bytes2]
      streamEnd := ECode.eof
      fs := ([] : List (List Char × List Char))
      unopenable := ([] : List (List Char))
      file_path := ([] : List Char)
      fileOpen := false
      output_file_paths := ([] : List (List Char))
      boundary := ("zz").toList
      trace := ([] : List Event) }))]
  simp only []
  rw [sync_process_file_header.eq_3]
  simp only []
  rw [(by decide : (("\r\nfilename=\"a\"\r\n\r\n1\r\n--zz--\r\n").toList).take 18 = ("\r\nfilename=\"a\"\r\n\r\n").toList)]
  rw [(by decide : findSubstr filenameKey (("\r\nfilename=\"a\"\r\n\r\n").toList) = some 2)]
  simp only []
  rw [(by decide : (("\r\nfilename=\"a\"\r\n\r\n").toList).drop (2 + 10) = ("a\"\r\n\r\n").toList)]
  rw [(by decide : rfindChar '"' (("a\"\r\n\r\n").toList) = some 1)]
  simp only []
  rw [(by decide : (("a\"\r\n\r\n").toList).take 1 = ("a").toList)]
  rw [(by decide : resolve_file_path cfgW ([] : List (List Char × List Char)) (("a").toList)
    = Except.ok (("./a").toList))]
  simp only []
  rw [if_neg (by decide : ¬ (("./a").toList) ∈ ([] : List (List Char)))]
  rw [(by decide : fsSet ([] : List (List Char × List Char)) (("./a").toList) [] = [(("./a").toList, ([] : List Char))])]
  rw [(by decide : (("\r\nfilename=\"a\"\r\n\r\n1\r\n--zz--\r\n").toList).drop 18 = ("1\r\n--zz--\r\n").toList)]
  simp only [List.nil_append, List.append_nil, List.cons_append]
  rw [(by decide : read_until cfgW.packets_size (("zz").toList)
    { buffer := ("1\r\n--zz--\r\n").toList
      chunks := [c2bytes2]
      streamEnd := ECode.eof
      fs := [(("./a").toList, ([] : List Char))]
      unopenable := ([] : List (List Char))
      file_path := ("./a").toList
      fileOpen := true
      output_file_paths := [("./a").toList]
      boundary := ("zz").toList
      trace := [Event.openF ("./a").toList,
        Event.push ("./a").toList] }
    = (none, 7,
    { buffer := ("1\r\n--zz--\r\n").toList
      chunks := [c2bytes2]
      streamEnd := ECode.eof
      fs := [(("./a").toList, ([] : List Char))]
      unopenable := ([] : List (List Char))
      file_path := ("./a").toList
      fileOpen := true
      output_file_paths := [("./a").toList]
      boundary := ("zz").toList
      trace := [Event.openF ("./a").toList,
        Event.push ("./a").toList] }))]
  simp only []
  rw [sync_process_file_body.eq_3,
    if_neg (show ¬ ((none : Option ECode) = some ECode.notFound) by simp)]
  simp only []
  rw [(by decide : sub64 (sub64 7 (("zz").toList).length) 4 = 1)]
  rw [(by decide : (("1\r\n--zz--\r\n").toList).take 1 = ("1").toList)]
  rw [(by decide : fsAppend [(("./a").toList, ([] : List Char))] (("./a").toList) (("1").toList) = [(("./a").toList, ("1").toList)])]
  rw [(by decide : (("1\r\n--zz--\r\n").toList).drop 7 = ("--\r\n").toList)]
  rw [if_neg (by decide : ¬ cfgW.on_read_file_body_handler = true)]
  simp only [List.append_nil, List.cons_append, List.nil_append]
  rw [if_pos (by decide : (("--\r\n").toList) = epilogueMark)]

theorem c2_run_one_chunk :
    sync_download cfgW 9 ctW [] [c2bytes1 ++ c2bytes2] ECode.eof [] []
      = some (
    { buffer := ("--\r\n").toList
      chunks := ([] : List (List Char))
      streamEnd := ECode.eof
      fs := [(("./a").toList, ("1").toList), (("./b").toList, ("2").toList)]
      unopenable := ([] : List (List Char))
      file_path := ("./b").toList
      fileOpen := false
      output_file_paths := [("./a").toList, ("./b").toList]
      boundary := ("zz").toList
      trace := [Event.openF ("./a").toList,
        Event.push ("./a").toList,
        Event.write ("./a").toList ("1").toList,
        Event.closeF ("./a").toList,
        Event.openF ("./b").toList,
        Event.push ("./b").toList,
        Event.write ("./b").toList ("2").toList,
        Event.closeF ("./b").toList] },
    none) := by
  unfold sync_download
  rw [if_pos (by decide : containsSubstr ctW mfdKey = true)]
  unfold sync_prepare_files_processing
  simp only []
  rw [(by decide : findSubstr boundaryKey ctW = some 21)]
  simp only []
  rw [(by decide : read_until cfgW.packets_size (ctW.drop (21 + 9))
    { buffer := ([] : List Char)
      chunks := [c2bytes1 ++ c2bytes2]
      streamEnd := ECode.eof
      fs := ([] : List (List Char × List Char))
      unopenable := ([] : List (List Char))
      file_path := ([] : List Char)
      fileOpen := false
      output_file_paths := ([] : List (List Char))
      boundary := ctW.drop (21 + 9)
      trace := ([] : List Event) }
    = (none, 4,
    { buffer := ("--zz\r\nfilename=\"a\"\r\n\r\n1\r\n--zz--\r\nfilename=\"b\"\r\n\r\n2\r\n--zz--\r\n").toList
      chunks := ([] : List (List Char))
      streamEnd := ECode.eof
      fs := ([] : List (List Char × List Char))
      unopenable := ([] : List (List Char))
      file_path := ([] : List Char)
      fileOpen := false
      output_file_paths := ([] : List (List Char))
      boundary := ("zz").toList
      trace := ([] : List Event) }))]
  simp only []
  rw [(by decide : (("--zz\r\nfilename=\"a\"\r\n\r\n1\r\n--zz--\r\nfilename=\"b\"\r\n\r\n2\r\n--zz--\r\n").toList).drop 4 = ("\r\nfilename=\"a\"\r\n\r\n1\r\n--zz--\r\nfilename=\"b\"\r\n\r\n2\r\n--zz--\r\n").toList)]
  rw [(by decide : read_until cfgW.packets_size crlf2
    { buffer := ("\r\nfilename=\"a\"\r\n\r\n1\r\n--zz--\r\nfilename=\"b\"\r\n\r\n2\r\n--zz--\r\n").toList
      chunks := ([] : List (List Char))
      streamEnd := ECode.eof
      fs := ([] : List (List Char × List Char))
      unopenable := ([] : List (List Char))
      file_path := ([] : List Char)
      fileOpen := false
      output_file_paths := ([] : List (List Char))
      boundary := ("zz").toList
      trace := ([] : List Event) }
    = (none, 18,
    { buffer := ("\r\nfilename=\"a\"\r\n\r\n1\r\n--zz--\r\nfilename=\"b\"\r\n\r\n2\r\n--zz--\r\n").toList
      chunks := ([] : List (List Char))
      streamEnd := ECode.eof
      fs := ([] : List (List Char × List Char))
      unopenable := ([] : List (List Char))
      file_path := ([] : List Char)
      fileOpen := false
      output_file_paths := ([] : List (List Char))
      boundary := ("zz").toList
      trace := ([] : List Event) }))]
  simp only []
  rw [sync_process_file_header.eq_3]
  simp only []
  rw [(by decide : (("\r\nfilename=\"a\"\r\n\r\n1\r\n--zz--\r\nfilename=\"b\"\r\n\r\n2\r\n--zz--\r\n").toList).take 18 = ("\r\nfilename=\"a\"\r\n\r\n").toList)]
  rw [(by decide : findSubstr filenameKey (("\r\nfilename=\"a\"\r\n\r\n").toList) = some 2)]
  simp only []
  rw [(by decide : (("\r\nfilename=\"a\"\r\n\r\n").toList).drop (2 + 10) = ("a\"\r\n\r\n").toList)]
  rw [(by decide : rfindChar '"' (("a\"\r\n\r\n").toList) = some 1)]
  simp only []
  rw [(by decide : (("a\"\r\n\r\n").toList).take 1 = ("a").toList)]
  rw [(by decide : resolve_file_path cfgW ([] : List (List Char × List Char)) (("a").toList)
    = Except.ok (("./a").toList))]
  simp only []
  rw [if_neg (by decide : ¬ (("./a").toList) ∈ ([] : List (List Char)))]
  rw [(by decide : fsSet ([] : List (List Char × List Char)) (("./a").toList) [] = [(("./a").toList, ([] : List Char))])]
  rw [(by decide : (("\r\nfilename=\"a\"\r\n\r\n1\r\n--zz--\r\nfilename=\"b\"\r\n\r\n2\r\n--zz--\r\n").toList).drop 18 = ("1\r\n--zz--\r\nfilename=\"b\"\r\n\r\n2\r\n--zz--\r\n").toList)]
  simp only [List.nil_append, List.append_nil, List.cons_append]
  rw [(by decide : read_until cfgW.packets_size (("zz").toList)
    { buffer := ("1\r\n--zz--\r\nfilename=\"b\"\r\n\r\n2\r\n--zz--\r\n").toList
      chunks := ([] : List (List Char))
      streamEnd := ECode.eof
      fs := [(("./a").toList, ([] : List Char))]
      unopenable := ([] : List (List Char))
      file_path := ("./a").toList
      fileOpen := true
      output_file_paths := [("./a").toList]
      boundary := ("zz").toList
      trace := [Event.openF ("./a").toList,
        Event.push ("./a").toList] }
    = (none, 7,
    { buffer := ("1\r\n--zz--\r\nfilename=\"b\"\r\n\r\n2\r\n--zz--\r\n").toList
      chunks := ([] : List (List Char))
      streamEnd := ECode.eof
      fs := [(("./a").toList, ([] : List Char))]
      unopenable := ([] : List (List Char))
      file_path := ("./a").toList
      fileOpen := true
      output_file_paths := [("./a").toList]
      boundary := ("zz").toList
      trace := [Event.openF ("./a").toList,
        Event.push ("./a").toList] }))]
  simp only []
  rw [sync_process_file_body.eq_3,
    if_neg (show ¬ ((none : Option ECode) = some ECode.notFound) by simp)]
  simp only []
  rw [(by decide : sub64 (sub64 7 (("zz").toList).length) 4 = 1)]
  rw [(by decide : (("1\r\n--zz--\r\nfilename=\"b\"\r\n\r\n2\r\n--zz--\r\n").toList).take 1 = ("1").toList)]
  rw [(by decide : fsAppend [(("./a").toList, ([] : List Char))] (("./a").toList) (("1").toList) = [(("./a").toList, ("1").toList)])]
  rw [(by decide : (("1\r\n--zz--\r\nfilename=\"b\"\r\n\r\n2\r\n--zz--\r\n").toList).drop 7 = ("--\r\nfilename=\"b\"\r\n\r\n2\r\n--zz--\r\n").toList)]
  rw [if_neg (by decide : ¬ cfgW.on_read_file_body_handler = true)]
  simp only [List.append_nil, List.cons_append, List.nil_append]
  rw [if_neg (by decide : ¬ (("--\r\nfilename=\"b\"\r\n\r\n2\r\n--zz--\r\n").toList) = epilogueMark)]
  rw [(by decide : read_until cfgW.packets_size crlf2
    { buffer := ("--\r\nfilename=\"b\"\r\n\r\n2\r\n--zz--\r\n").toList
      chunks := ([] : List (List Char))
      streamEnd := ECode.eof
      fs := [(("./a").toList, ("1").toList)]
      unopenable := ([] : List (List Char))
      file_path := ("./a").toList
      fileOpen := false
      output_file_paths := [("./a").toList]
      boundary := ("zz").toList
      trace := [Event.openF ("./a").toList,
        Event.push ("./a").toList,
        Event.write ("./a").toList ("1").toList,
        Event.closeF ("./a").toList] }
    = (none, 20,
    { buffer := ("--\r\nfilename=\"b\"\r\n\r\n2\r\n--zz--\r\n").toList
      chunks := ([] : List (List Char))
      streamEnd := ECode.eof
      fs := [(("./a").toList, ("1").toList)]
      unopenable := ([] : List (List Char))
      file_path := ("./a").toList
      fileOpen := false
      output_file_paths := [("./a").toList]
      boundary := ("zz").toList
      trace := [Event.openF ("./a").toList,
        Event.push ("./a").toList,
        Event.write ("./a").toList ("1").toList,
        Event.closeF ("./a").toList] }))]
  simp only []
  rw [sync_process_file_header.eq_3]
  simp only []
  rw [(by decide : (("--\r\nfilename=\"b\"\r\n\r\n2\r\n--zz--\r\n").toList).take 20 = ("--\r\nfilename=\"b\"\r\n\r\n").toList)]
  rw [(by decide : findSubstr filenameKey (("--\r\nfilename=\"b\"\r\n\r\n").toList) = some 4)]
  simp only []
  rw [(by decide : (("--\r\nfilename=\"b\"\r\n\r\n").toList).drop (4 + 10) = ("b\"\r\n\r\n").toList)]
  rw [(by decide : rfindChar '"' (("b\"\r\n\r\n").toList) = some 1)]
  simp only []
  rw [(by decide : (("b\"\r\n\r\n").toList).take 1 = ("b").toList)]
  rw [(by decide : resolve_file_path cfgW [(("./a").toList, ("1").toList)] (("b").toList)
    = Except.ok (("./b").toList))]
  simp only []
  rw [if_neg (by decide : ¬ (("./b").toList) ∈ ([] : List (List Char)))]
  rw [(by decide : fsSet [(("./a").toList, ("1").toList)] (("./b").toList) [] = [(("./a").toList, ("1").toList), (("./b").toList, ([] : List Char))])]
  rw [(by decide : (("--\r\nfilename=\"b\"\r\n\r\n2\r\n--zz--\r\n").toList).drop 20 = ("2\r\n--zz--\r\n").toList)]
  simp only [List.nil_append, List.append_nil, List.cons_append]
  rw [(by decide : read_until cfgW.packets_size (("zz").toList)
    { buffer := ("2\r\n--zz--\r\n").toList
      chunks := ([] : List (List Char))
      streamEnd := ECode.eof
      fs := [(("./a").toList, ("1").toList), (("./b").toList, ([] : List Char))]
      unopenable := ([] : List (List Char))
      file_path := ("./b").toList
      fileOpen := true
      output_file_paths := [("./a").toList, ("./b").toList]
      boundary := ("zz").toList
      trace := [Event.openF ("./a").toList,
        Event.push ("./a").toList,
        Event.write ("./a").toList ("1").toList,
        Event.closeF ("./a").toList,
        Event.openF ("./b").toList,
        Event.push ("./b").toList] }
    = (none, 7,
    { buffer := ("2\r\n--zz--\r\n").toList
      chunks := ([] : List (List Char))
      streamEnd := ECode.eof
      fs := [(("./a").toList, ("1").toList), (("./b").toList, ([] : List Char))]
      unopenable := ([] : List (List Char))
      file_path := ("./b").toList
      fileOpen := true
      output_file_paths := [("./a").toList, ("./b").toList]
      boundary := ("zz").toList
      trace := [Event.openF ("./a").toList,
        Event.push ("./a").toList,
        Event.write ("./a").toList ("1").toList,
        Event.closeF ("./a").toList,
        Event.openF ("./b").toList,
        Event.push ("./b").toList] }))]
  simp only []
  rw [sync_process_file_body.eq_3,
    if_neg (show ¬ ((none : Option ECode) = some ECode.notFound) by simp)]
  simp only []
  rw [(by decide : sub64 (sub64 7 (("zz").toList).length) 4 = 1)]
  rw [(by decide : (("2\r\n--zz--\r\n").toList).take 1 = ("2").toList)]
  rw [(by decide : fsAppend [(("./a").toList, ("1").toList), (("./b").toList, ([] : List Char))] (("./b").toList) (("2").toList) = [(("./a").toList, ("1").toList), (("./b").toList, ("2").toList)])]
  rw [(by decide : (("2\r\n--zz--\r\n").toList).drop 7 = ("--\r\n").toList)]
  rw [if_neg (by decide : ¬ cfgW.on_read_file_body_handler = true)]
  simp only [List.append_nil, List.cons_append, List.nil_append]
  rw [if_pos (by decide : (("--\r\n").toList) = epilogueMark)]

theorem c8_run_split :
    sync_download cfgW 9 ctW [] [c8bytes1, c8bytes2] ECode.eof [] []
      = some (
    { buffer := ("--\r\n").toList
      chunks := ([] : List (List Char))
      streamEnd := ECode.eof
      fs := [(("./a").toList, ("1").toList)]
      unopenable := ([] : List (List Char))
      file_path := ("./a").toList
      fileOpen := false
      output_file_paths := [("./a").toList]
      boundary := ("zz").toList
      trace := [Event.openF ("./a").toList,
        Event.push ("./a").toList,
        Event.write ("./a").toList ("1").toList,
        Event.closeF ("./a").toList] },
    some ECode.eof) := by
  unfold sync_download
  rw [if_pos (by decide : containsSubstr ctW mfdKey = true)]
  unfold sync_prepare_files_processing
  simp only []
  rw [(by decide : findSubstr boundaryKey ctW = some 21)]
  simp only []
  rw [(by decide : read_until cfgW.packets_size (ctW.drop (21 + 9))
    { buffer := ([] : List Char)
      chunks := [c8bytes1, c8bytes2]
      streamEnd := ECode.eof
      fs := ([] : List (List Char × List Char))
      unopenable := ([] : List (List Char))
      file_path := ([] : List Char)
      fileOpen := false
      output_file_paths := ([] : List (List Char))
      boundary := ctW.drop (21 + 9)
      trace := ([] : List Event) }
    = (none, 4,
    { buffer := ("--zz\r\nfilename=\"a\"\r\n\r\n1\r\n--zz--").toList
      chunks := [c8bytes2]
      streamEnd := ECode.eof
      fs := ([] : List (List Char × List Char))
      unopenable := ([] : List (List Char))
      file_path := ([] : List Char)
      fileOpen := false
      output_file_paths := ([] : List (List Char))
      boundary := ("zz").toList
      trace := ([] : List Event) }))]
  simp only []
  rw [(by decide : (("--zz\r\nfilename=\"a\"\r\n\r\n1\r\n--zz--").toList).drop 4 = ("\r\nfilename=\"a\"\r\n\r\n1\r\n--zz--").toList)]
  rw [(by decide : read_until cfgW.packets_size crlf2
    { buffer := ("\r\nfilename=\"a\"\r\n\r\n1\r\n--zz--").toList
      chunks := [c8bytes2]
      streamEnd := ECode.eof
      fs := ([] : List (List Char × List Char))
      unopenable := ([] : List (List Char))
      file_path := ([] : List Char)
      fileOpen := false
      output_file_paths := ([] : List (List Char))
      boundary := ("zz").toList
      trace := ([] : List Event) }
    = (none, 18,
    { buffer := ("\r\nfilename=\"a\"\r\n\r\n1\r\n--zz--").toList
      chunks := [c8bytes2]
      streamEnd := ECode.eof
      fs := ([] : List (List Char × List Char))
      unopenable := ([] : List (List Char))
      file_path := ([] : List Char)
      fileOpen := false
      output_file_paths := ([] : List (List Char))
      boundary := ("zz").toList
      trace := ([] : List Event) }))]
  simp only []
  rw [sync_process_file_header.eq_3]
  simp only []
  rw [(by decide : (("\r\nfilename=\"a\"\r\n\r\n1\r\n--zz--").toList).take 18 = ("\r\nfilename=\"a\"\r\n\r\n").toList)]
  rw [(by decide : findSubstr filenameKey (("\r\nfilename=\"a\"\r\n\r\n").toList) = some 2)]
  simp only []
  rw [(by decide : (("\r\nfilename=\"a\"\r\n\r\n").toList).drop (2 + 10) = ("a\"\r\n\r\n").toList)]
  rw [(by decide : rfindChar '"' (("a\"\r\n\r\n").toList) = some 1)]
  simp only []
  rw [(by decide : (("a\"\r\n\r\n").toList).take 1 = ("a").toList)]
  rw [(by decide : resolve_file_path cfgW ([] : List (List Char × List Char)) (("a").toList)
    = Except.ok (("./a").toList))]
  simp only []
  rw [if_neg (by decide : ¬ (("./a").toList) ∈ ([] : List (List Char)))]
  rw [(by decide : fsSet ([] : List (List Char × List Char)) (("./a").toList) [] = [(("./a").toList, ([] : List Char))])]
  rw [(by decide : (("\r\nfilename=\"a\"\r\n\r\n1\r\n--zz--").toList).drop 18 = ("1\r\n--zz--").toList)]
  simp only [List.nil_append, List.append_nil, List.cons_append]
  rw [(by decide : read_until cfgW.packets_size (("zz").toList)
    { buffer := ("1\r\n--zz--").toList
      chunks := [c8bytes2]
      streamEnd := ECode.eof
      fs := [(("./a").toList, ([] : List Char))]
      unopenable := ([] : List (List Char))
      file_path := ("./a").toList
      fileOpen := true
      output_file_paths := [("./a").toList]
      boundary := ("zz").toList
      trace := [Event.openF ("./a").toList,
        Event.push ("./a").toList] }
    = (none, 7,
    { buffer := ("1\r\n--zz--").toList
      chunks := [c8bytes2]
      streamEnd := ECode.eof
      fs := [(("./a").toList, ([] : List Char))]
      unopenable := ([] : List (List Char))
      file_path := ("./a").toList
      fileOpen := true
      output_file_paths := [("./a").toList]
      boundary := ("zz").toList
      trace := [Event.openF ("./a").toList,
        Event.push ("./a").toList] }))]
  simp only []
  rw [sync_process_file_body.eq_3,
    if_neg (show ¬ ((none : Option ECode) = some ECode.notFound) by simp)]
  simp only []
  rw [(by decide : sub64 (sub64 7 (("zz").toList).length) 4 = 1)]
  rw [(by decide : (("1\r\n--zz--").toList).take 1 = ("1").toList)]
  rw [(by decide : fsAppend [(("./a").toList, ([] : List Char))] (("./a").toList) (("1").toList) = [(("./a").toList, ("1").toList)])]
  rw [(by decide : (("1\r\n--zz--").toList).drop 7 = ("--").toList)]
  rw [if_neg (by decide : ¬ cfgW.on_read_file_body_handler = true)]
  simp only [List.append_nil, List.cons_append, List.nil_append]
  rw [if_neg (by decide : ¬ (("--").toList) = epilogueMark)]
  rw [(by decide : read_until cfgW.packets_size crlf2
    { buffer := ("--").toList
      chunks := [c8bytes2]
      streamEnd := ECode.eof
      fs := [(("./a").toList, ("1").toList)]
      unopenable := ([] : List (List Char))
      file_path := ("./a").toList
      fileOpen := false
      output_file_paths := [("./a").toList]
      boundary := ("zz").toList
      trace := [Event.openF ("./a").toList,
        Event.push ("./a").toList,
        Event.write ("./a").toList ("1").toList,
        Event.closeF ("./a").toList] }
    = ((some ECode.eof : Option ECode), 0,
    { buffer := ("--\r\n").toList
      chunks := ([] : List (List Char))
      streamEnd := ECode.eof
      fs := [(("./a").toList, ("1").toList)]
      unopenable := ([] : List (List Char))
      file_path := ("./a").toList
      fileOpen := false
      output_file_paths := [("./a").toList]
      boundary := ("zz").toList
      trace := [Event.openF ("./a").toList,
        Event.push ("./a").toList,
        Event.write ("./a").toList ("1").toList,
        Event.closeF ("./a").toList] }))]
  simp only []
  rw [sync_process_file_header.eq_2]

theorem c1_run_over_cap :
    sync_download cfgB 9 ctW [] [synthBody bndW c1partsW] ECode.eof [] []
      = some (
    { buffer := ("--\r\n").toList
      chunks := ([] : List (List Char))
      streamEnd := ECode.eof
      fs := [(("./a.txt").toList, ("AAAAAAAAAAAAAAAAAAAAAAAAAAAAAAAAAAAAAAAAAAAAAAAAAAAAAAAAAAA\r\n--zz--\r\n").toList)]
      unopenable := ([] : List (List Char))
      file_path := ("./a.txt").toList
      fileOpen := false
      output_file_paths := [("./a.txt").toList]
      boundary := ("zz").toList
      trace := [Event.openF ("./a.txt").toList,
        Event.push ("./a.txt").toList,
        Event.write ("./a.txt").toList ("AAAAAAAAAAAAAAAAAAAAAAAAAAAAAAAAAAAAAAAAAAAAAAAAAAAAAAAAAAA\r\n-").toList,
        Event.write ("./a.txt").toList ("-zz--\r\n").toList,
        Event.closeF ("./a.txt").toList] },
    none) := by
  unfold sync_download
  rw [if_pos (by decide : containsSubstr ctW mfdKey = true)]
  unfold sync_prepare_files_processing
  simp only []
  rw [(by decide : findSubstr boundaryKey ctW = some 21)]
  simp only []
  rw [(by decide : read_until cfgB.packets_size (ctW.drop (21 + 9))
    { buffer := ([] : List Char)
      chunks := [synthBody bndW c1partsW]
      streamEnd := ECode.eof
      fs := ([] : List (List Char × List Char))
      unopenable := ([] : List (List Char))
      file_path := ([] : List Char)
      fileOpen := false
      output_file_paths := ([] : List (List Char))
      boundary := ctW.drop (21 + 9)
      trace := ([] : List Event) }
    = (none, 4,
    { buffer := ("--zz\r\nContent-Disposition: form-data; name=\"f\"; filename=\"a.txt\"").toList
      chunks := [("\r\n\r\nAAAAAAAAAAAAAAAAAAAAAAAAAAAAAAAAAAAAAAAAAAAAAAAAAAAAAAAAAAA\r\n--zz--\r\n").toList]
      streamEnd := ECode.eof
      fs := ([] : List (List Char × List Char))
      unopenable := ([] : List (List Char))
      file_path := ([] : List Char)
      fileOpen := false
      output_file_paths := ([] : List (List Char))
      boundary := ("zz").toList
      trace := ([] : List Event) }))]
  simp only []
  rw [(by decide : (("--zz\r\nContent-Disposition: form-data; name=\"f\"; filename=\"a.txt\"").toList).drop 4 = ("\r\nContent-Disposition: form-data; name=\"f\"; filename=\"a.txt\"").toList)]
  rw [(by decide : read_until cfgB.packets_size crlf2
    { buffer := ("\r\nContent-Disposition: form-data; name=\"f\"; filename=\"a.txt\"").toList
      chunks := [("\r\n\r\nAAAAAAAAAAAAAAAAAAAAAAAAAAAAAAAAAAAAAAAAAAAAAAAAAAAAAAAAAAA\r\n--zz--\r\n").toList]
      streamEnd := ECode.eof
      fs := ([] : List (List Char × List Char))
      unopenable := ([] : List (List Char))
      file_path := ([] : List Char)
      fileOpen := false
      output_file_paths := ([] : List (List Char))
      boundary := ("zz").toList
      trace := ([] : List Event) }
    = (none, 64,
    { buffer := ("\r\nContent-Disposition: form-data; name=\"f\"; filename=\"a.txt\"\r\n\r\n").toList
      chunks := [("AAAAAAAAAAAAAAAAAAAAAAAAAAAAAAAAAAAAAAAAAAAAAAAAAAAAAAAAAAA\r\n--zz--\r\n").toList]
      streamEnd := ECode.eof
      fs := ([] : List (List Char × List Char))
      unopenable := ([] : List (List Char))
      file_path := ([] : List Char)
      fileOpen := false
      output_file_paths := ([] : List (List Char))
      boundary := ("zz").toList
      trace := ([] : List Event) }))]
  simp only []
  rw [sync_process_file_header.eq_3]
  simp only []
  rw [(by decide : (("\r\nContent-Disposition: form-data; name=\"f\"; filename=\"a.txt\"\r\n\r\n").toList).take 64 = ("\r\nContent-Disposition: form-data; name=\"f\"; filename=\"a.txt\"\r\n\r\n").toList)]
  rw [(by decide : findSubstr filenameKey (("\r\nContent-Disposition: form-data; name=\"f\"; filename=\"a.txt\"\r\n\r\n").toList) = some 44)]
  simp only []
  rw [(by decide : (("\r\nContent-Disposition: form-data; name=\"f\"; filename=\"a.txt\"\r\n\r\n").toList).drop (44 + 10) = ("a.txt\"\r\n\r\n").toList)]
  rw [(by decide : rfindChar '"' (("a.txt\"\r\n\r\n").toList) = some 5)]
  simp only []
  rw [(by decide : (("a.txt\"\r\n\r\n").toList).take 5 = ("a.txt").toList)]
  rw [(by decide : resolve_file_path cfgB ([] : List (List Char × List Char)) (("a.txt").toList)
    = Except.ok (("./a.txt").toList))]
  simp only []
  rw [if_neg (by decide : ¬ (("./a.txt").toList) ∈ ([] : List (List Char)))]
  rw [(by decide : fsSet ([] : List (List Char × List Char)) (("./a.txt").toList) [] = [(("./a.txt").toList, ([] : List Char))])]
  rw [(by decide : (("\r\nContent-Disposition: form-data; name=\"f\"; filename=\"a.txt\"\r\n\r\n").toList).drop 64 = ([] : List Char))]
  simp only [List.nil_append, List.append_nil, List.cons_append]
  rw [(by decide : read_until cfgB.packets_size (("zz").toList)
    { buffer := ([] : List Char)
      chunks := [("AAAAAAAAAAAAAAAAAAAAAAAAAAAAAAAAAAAAAAAAAAAAAAAAAAAAAAAAAAA\r\n--zz--\r\n").toList]
      streamEnd := ECode.eof
      fs := [(("./a.txt").toList, ([] : List Char))]
      unopenable := ([] : List (List Char))
      file_path := ("./a.txt").toList
      fileOpen := true
      output_file_paths := [("./a.txt").toList]
      boundary := ("zz").toList
      trace := [Event.openF ("./a.txt").toList,
        Event.push ("./a.txt").toList] }
    = ((some ECode.notFound : Option ECode), 0,
    { buffer := ("AAAAAAAAAAAAAAAAAAAAAAAAAAAAAAAAAAAAAAAAAAAAAAAAAAAAAAAAAAA\r\n--z").toList
      chunks := [("z--\r\n").toList]
      streamEnd := ECode.eof
      fs := [(("./a.txt").toList, ([] : List Char))]
      unopenable := ([] : List (List Char))
      file_path := ("./a.txt").toList
      fileOpen := true
      output_file_paths := [("./a.txt").toList]
      boundary := ("zz").toList
      trace := [Event.openF ("./a.txt").toList,
        Event.push ("./a.txt").toList] }))]
  simp only []
  rw [sync_process_file_body.eq_2, if_pos rfl]
  simp only []
  rw [(by decide : sub64 (("AAAAAAAAAAAAAAAAAAAAAAAAAAAAAAAAAAAAAAAAAAAAAAAAAAAAAAAAAAA\r\n--z").toList).length (("zz").toList).length = 62)]
  rw [(by decide : (("AAAAAAAAAAAAAAAAAAAAAAAAAAAAAAAAAAAAAAAAAAAAAAAAAAAAAAAAAAA\r\n--z").toList).take 62 = ("AAAAAAAAAAAAAAAAAAAAAAAAAAAAAAAAAAAAAAAAAAAAAAAAAAAAAAAAAAA\r\n-").toList)]
  rw [(by decide : fsAppend [(("./a.txt").toList, ([] : List Char))] (("./a.txt").toList) (("AAAAAAAAAAAAAAAAAAAAAAAAAAAAAAAAAAAAAAAAAAAAAAAAAAAAAAAAAAA\r\n-").toList) = [(("./a.txt").toList, ("AAAAAAAAAAAAAAAAAAAAAAAAAAAAAAAAAAAAAAAAAAAAAAAAAAAAAAAAAAA\r\n-").toList)])]
  rw [(by decide : (("AAAAAAAAAAAAAAAAAAAAAAAAAAAAAAAAAAAAAAAAAAAAAAAAAAAAAAAAAAA\r\n--z").toList).drop 62 = ("-z").toList)]
  simp only [List.append_nil, List.cons_append, List.nil_append]
  rw [(by decide : read_until cfgB.packets_size (("zz").toList)
    { buffer := ("-z").toList
      chunks := [("z--\r\n").toList]
      streamEnd := ECode.eof
      fs := [(("./a.txt").toList, ("AAAAAAAAAAAAAAAAAAAAAAAAAAAAAAAAAAAAAAAAAAAAAAAAAAAAAAAAAAA\r\n-").toList)]
      unopenable := ([] : List (List Char))
      file_path := ("./a.txt").toList
      fileOpen := true
      output_file_paths := [("./a.txt").toList]
      boundary := ("zz").toList
      trace := [Event.openF ("./a.txt").toList,
        Event.push ("./a.txt").toList,
        Event.write ("./a.txt").toList ("AAAAAAAAAAAAAAAAAAAAAAAAAAAAAAAAAAAAAAAAAAAAAAAAAAAAAAAAAAA\r\n-").toList] }
    = (none, 3,
    { buffer := ("-zz--\r\n").toList
      chunks := ([] : List (List Char))
      streamEnd := ECode.eof
      fs := [(("./a.txt").toList, ("AAAAAAAAAAAAAAAAAAAAAAAAAAAAAAAAAAAAAAAAAAAAAAAAAAAAAAAAAAA\r\n-").toList)]
      unopenable := ([] : List (List Char))
      file_path := ("./a.txt").toList
      fileOpen := true
      output_file_paths := [("./a.txt").toList]
      boundary := ("zz").toList
      trace := [Event.openF ("./a.txt").toList,
        Event.push ("./a.txt").toList,
        Event.write ("./a.txt").toList ("AAAAAAAAAAAAAAAAAAAAAAAAAAAAAAAAAAAAAAAAAAAAAAAAAAAAAAAAAAA\r\n-").toList] }))]
  simp only []
  rw [sync_process_file_body.eq_3,
    if_neg (show ¬ ((none : Option ECode) = some ECode.notFound) by simp)]
  simp only []
  rw [(by decide : sub64 (sub64 3 (("zz").toList).length) 4 = 18446744073709551613)]
  rw [(by decide : (("-zz--\r\n").toList).take 18446744073709551613 = ("-zz--\r\n").toList)]
  rw [(by decide : fsAppend [(("./a.txt").toList, ("AAAAAAAAAAAAAAAAAAAAAAAAAAAAAAAAAAAAAAAAAAAAAAAAAAAAAAAAAAA\r\n-").toList)] (("./a.txt").toList) (("-zz--\r\n").toList) = [(("./a.txt").toList, ("AAAAAAAAAAAAAAAAAAAAAAAAAAAAAAAAAAAAAAAAAAAAAAAAAAAAAAAAAAA\r\n--zz--\r\n").toList)])]
  rw [(by decide : (("-zz--\r\n").toList).drop 3 = ("--\r\n").toList)]
  rw [if_neg (by decide : ¬ cfgB.on_read_file_body_handler = true)]
  simp only [List.append_nil, List.cons_append, List.nil_append]
  rw [if_pos (by decide : (("--\r\n").toList) = epilogueMark)]

/-! ### The claims -/

/-- C1 counterexample: a well-formed one-part body of 59 `A` bytes whose
total size (137 bytes) exceeds `packets_size = 64`.  The download completes
without error and returns exactly one path, but the stored bytes are the
content followed by `--zz--` and CRLF bytes: the cap-hit flush retains only
`boundary_length` trailing bytes — 4 fewer than the in-body delimiter
CRLF `--` boundary — so part of the delimiter is written to the file, and
the subsequent boundary match transfers only 3 bytes, making the unguarded
`bytes_transferred - boundary_length - 4` write length wrap around and
append the rest of the buffer.  The stored bytes thus differ from the
part's original content. -/
theorem c1_round_trip_counterexample :
    (wfBody bndW c1partsW = true
      ∧ cfgB.packets_size < (synthBody bndW c1partsW).length)
    ∧ (sync_download cfgB 9 ctW [] [synthBody bndW c1partsW] ECode.eof [] []).map
        (fun r => (r.1.output_file_paths, r.1.fs, r.2))
      = some ([('.' :: '/' :: ("a.txt").toList)],
          [(('.' :: '/' :: ("a.txt").toList), c1leak)], none)
    ∧ c1leak ≠ (Part.mk (("a.txt").toList) (List.replicate 59 'A')).content := by
  refine ⟨⟨by decide, by decide⟩, ?_, by decide⟩
  rw [c1_run_over_cap]
  decide

/-- C1 (amended): for every well-formed synthetic multipart body whose total
size is below `packets_size`, a completed download returns exactly one path
per part, and the bytes stored at the k-th returned path equal the k-th
part's content exactly — no boundary or CRLF bytes appended, no truncation.
Above the cap the claim fails: see the counterexample, where the cap-hit
flush leaks delimiter bytes into the stored file. -/
theorem c1_round_trip (cfg : Settings) (bnd dir : List Char) (parts : List Part)
    (ct ib : List Char) (chunks : List (List Char)) (se : ECode)
    (fs0 : List (List Char × List Char)) (un : List (List Char)) (fuel j : Nat)
    (hnh : cfg.on_read_file_header_handler = none)
    (hdir : cfg.output_directory = dir)
    (hmfd : containsSubstr ct mfdKey = true)
    (hj : findSubstr boundaryKey ct = some j)
    (hbnd : ct.drop (j + 9) = bnd)
    (hwf : wfBody bnd parts = true)
    (hflat : ib ++ chunks.flatten = synthBody bnd parts)
    (hcap : (synthBody bnd parts).length < cfg.packets_size)
    (hW : cfg.packets_size < W64)
    (hfree : ∀ p ∈ parts, fsExists fs0 (partPath dir p) = false)
    (hnodup : (parts.map (partPath dir)).Nodup)
    (hun : ∀ p ∈ parts, ¬ partPath dir p ∈ un)
    (hfuel : 2 * parts.length + 1 ≤ fuel) :
    ∃ s' e', sync_download cfg fuel ct ib chunks se fs0 un = some (s', e')
      ∧ s'.output_file_paths = parts.map (partPath dir)
      ∧ s'.output_file_paths.length = parts.length
      ∧ ∀ k (hk : k < parts.length),
          fsGet s'.fs (partPath dir (parts.get ⟨k, hk⟩))
            = some (parts.get ⟨k, hk⟩).content := by
  obtain ⟨s', e', h1, h2, h3, h4⟩ := sync_download_synth cfg bnd dir parts ct ib chunks se
    fs0 un fuel j hnh hdir hmfd hj hbnd hwf hflat hcap hW hfree hnodup hun hfuel
  refine ⟨s', e', h1, h2, ?_, ?_⟩
  · rw [h2]
    simp
  · intro k hk
    rw [h3]
    exact writeAll_get dir parts fs0 k hk hnodup

/-- C1 at a concrete input: the two-part fixture delivered as one chunk. -/
theorem c1_round_trip_witness :
    ∃ s' e', sync_download cfgW 5 ctW [] [synthBody bndW partsW] ECode.eof [] []
        = some (s', e')
      ∧ s'.output_file_paths = partsW.map (partPath ('.' :: []))
      ∧ s'.output_file_paths.length = partsW.length
      ∧ ∀ k (hk : k < partsW.length),
          fsGet s'.fs (partPath ('.' :: []) (partsW.get ⟨k, hk⟩))
            = some (partsW.get ⟨k, hk⟩).content :=
  c1_round_trip cfgW bndW ('.' :: []) partsW ctW [] [synthBody bndW partsW] ECode.eof
    [] [] 5 21 rfl rfl (by decide) (by decide) (by decide) (by decide) (by simp)
    (by decide) (by decide) (by decide) (by decide) (by decide) (by decide)

/-- C2 counterexample: one byte sequence — a complete one-part body followed
by epilogue bytes, which RFC 2046 permits — delivered as two chunks versus as
one chunk, every chunk far below `packets_size`.  The flattened bytes
coincide and both runs complete without error, yet the path lists differ:
the one-chunk run parses the epilogue bytes as a second part, because the
epilogue test compares the entire buffer against `--`CRLF and is therefore
sensitive to where the read chunks end. -/
theorem c2_chunking_counterexample :
    ([c2bytes1, c2bytes2].flatten = [c2bytes1 ++ c2bytes2].flatten
      ∧ (∀ c ∈ [c2bytes1, c2bytes2], c.length < cfgW.packets_size)
      ∧ (∀ c ∈ [c2bytes1 ++ c2bytes2], c.length < cfgW.packets_size))
    ∧ (sync_download cfgW 9 ctW [] [c2bytes1, c2bytes2] ECode.eof [] []).map
        (fun r => (r.1.output_file_paths, r.2))
      ≠ (sync_download cfgW 9 ctW [] [c2bytes1 ++ c2bytes2] ECode.eof [] []).map
        (fun r => (r.1.output_file_paths, r.2)) := by
  refine ⟨⟨by simp, by decide, by decide⟩, ?_⟩
  rw [c2_run_two_chunks, c2_run_one_chunk]
  decide

/-- C2 (amended): chunking independence does hold for the path list and the
file bytes on well-formed synthetic bodies: any two re-chunkings of the
identical byte sequence yield the same paths and the same filesystem, though
the final error code may differ between `none` and the stream-end code.  The
unrestricted claim is refuted by the counterexample. -/
theorem c2_chunking_amended (cfg : Settings) (bnd dir : List Char) (parts : List Part)
    (ct ib1 ib2 : List Char) (chunks1 chunks2 : List (List Char)) (se : ECode)
    (fs0 : List (List Char × List Char)) (un : List (List Char)) (fuel j : Nat)
    (hnh : cfg.on_read_file_header_handler = none)
    (hdir : cfg.output_directory = dir)
    (hmfd : containsSubstr ct mfdKey = true)
    (hj : findSubstr boundaryKey ct = some j)
    (hbnd : ct.drop (j + 9) = bnd)
    (hwf : wfBody bnd parts = true)
    (hflat1 : ib1 ++ chunks1.flatten = synthBody bnd parts)
    (hflat2 : ib2 ++ chunks2.flatten = synthBody bnd parts)
    (hcap : (synthBody bnd parts).length < cfg.packets_size)
    (hW : cfg.packets_size < W64)
    (hfree : ∀ p ∈ parts, fsExists fs0 (partPath dir p) = false)
    (hnodup : (parts.map (partPath dir)).Nodup)
    (hun : ∀ p ∈ parts, ¬ partPath dir p ∈ un)
    (hfuel : 2 * parts.length + 1 ≤ fuel) :
    ∃ s1 e1 s2 e2,
      sync_download cfg fuel ct ib1 chunks1 se fs0 un = some (s1, e1)
      ∧ sync_download cfg fuel ct ib2 chunks2 se fs0 un = some (s2, e2)
      ∧ s1.output_file_paths = s2.output_file_paths
      ∧ s1.fs = s2.fs := by
  obtain ⟨s1, e1, h1, h2, h3, h4⟩ := sync_download_synth cfg bnd dir parts ct ib1 chunks1 se
    fs0 un fuel j hnh hdir hmfd hj hbnd hwf hflat1 hcap hW hfree hnodup hun hfuel
  obtain ⟨s2, e2, g1, g2, g3, g4⟩ := sync_download_synth cfg bnd dir parts ct ib2 chunks2 se
    fs0 un fuel j hnh hdir hmfd hj hbnd hwf hflat2 hcap hW hfree hnodup hun hfuel
  exact ⟨s1, e1, s2, e2, h1, g1, by rw [h2, g2], by rw [h3, g3]⟩

/-- C2 (amended) at a concrete input: the fixture body as one chunk versus
split into single-byte chunks. -/
theorem c2_chunking_amended_witness :
    ∃ s1 e1 s2 e2,
      sync_download cfgW 5 ctW [] [synthBody bndW partsW] ECode.eof [] [] = some (s1, e1)
      ∧ sync_download cfgW 5 ctW [] ((synthBody bndW partsW).map (fun c => c :: []))
          ECode.eof [] [] = some (s2, e2)
      ∧ s1.output_file_paths = s2.output_file_paths
      ∧ s1.fs = s2.fs :=
  c2_chunking_amended cfgW bndW ('.' :: []) partsW ctW [] []
    [synthBody bndW partsW] ((synthBody bndW partsW).map (fun c => c :: []))
    ECode.eof [] [] 5 21 rfl rfl (by decide) (by decide) (by decide) (by decide)
    (by simp) (by decide) (by decide) (by decide) (by decide) (by decide)
    (by decide) (by decide)

/-- C3: the suspend-based mode and the blocking mode agree on every input:
`async_download` succeeds exactly when `sync_download` does, reaches the same
final state — hence the same path list and the same bytes written to each
file — and passes its completion handler exactly the error and path list the
blocking run returns. -/
theorem c3_async_sync_equivalence {α : Type} (cfg : Settings) (fuel : Nat)
    (ct ib : List Char) (chunks : List (List Char)) (se : ECode)
    (fs0 : List (List Char × List Char)) (un : List (List Char))
    (handler : Option ECode → List (List Char) → α) :
    async_download cfg fuel ct ib chunks se fs0 un handler
      = (sync_download cfg fuel ct ib chunks se fs0 un).map
          (fun r => (r.1, handler r.2 r.1.output_file_paths)) :=
  async_sync_download cfg fuel ct ib chunks se fs0 un handler

/-- C4: a stream error other than the cap-hit outcome while awaiting a body
boundary closes the in-flight file, deletes it, pops its path from the
result (keeping the previously completed paths), and propagates the error;
after the cleanup the deleted path maps to nothing in the filesystem. -/
theorem c4_body_error_cleanup (cfg : Settings) (fuel bt : Nat) (e : ECode) (s : DState)
    (prev : List (List Char))
    (hne : e ≠ ECode.notFound)
    (hout : s.output_file_paths = prev ++ [s.file_path])
    (hkeys : (s.fs.map Prod.fst).Nodup) :
    sync_process_file_body cfg (fuel + 1) (some e) bt s
      = some ({ s with
          fileOpen := false
          fs := fsErase s.fs s.file_path
          output_file_paths := prev
          trace := s.trace ++ [Event.closeF s.file_path, Event.deleteF s.file_path,
            Event.pop s.file_path] }, some e)
    ∧ fsGet (fsErase s.fs s.file_path) s.file_path = none := by
  constructor
  · rw [sync_process_file_body.eq_2,
      if_neg (show ¬ ((some e : Option ECode) = some ECode.notFound) from
        fun hx => hne (by injection hx))]
    simp only []
    rw [hout, getLastD_append_single, List.dropLast_concat]
  · exact fsGet_fsErase_self s.fs s.file_path hkeys

/-- C4 at a concrete input: a transport error while `./part.bin` is open. -/
theorem c4_body_error_cleanup_witness :
    sync_process_file_body cfgW (2 + 1) (some ECode.connectionReset) 0 c4sW
      = some ({ c4sW with
          fileOpen := false
          fs := fsErase c4sW.fs c4sW.file_path
          output_file_paths := [('.' :: '/' :: ("done.txt").toList)]
          trace := c4sW.trace ++ [Event.closeF c4sW.file_path, Event.deleteF c4sW.file_path,
            Event.pop c4sW.file_path] }, some ECode.connectionReset)
    ∧ fsGet (fsErase c4sW.fs c4sW.file_path) c4sW.file_path = none :=
  c4_body_error_cleanup cfgW 2 0 ECode.connectionReset c4sW
    [('.' :: '/' :: ("done.txt").toList)] (by decide) (by decide) (by decide)

/-- C5: on every execution path of the blocking download, the write-handle
event trace satisfies the discipline: at most one handle is open at any
time, every close, write and delete names the currently open handle's path
or a closed file, and the handle is closed at the end — and in particular a
part's handle is closed before its path is pushed to the result and before
its file is deleted, which is what `traceEnd` replays. -/
theorem c5_write_handle_discipline (cfg : Settings) (fuel : Nat) (ct ib : List Char)
    (chunks : List (List Char)) (se : ECode) (fs0 : List (List Char × List Char))
    (un : List (List Char)) (s' : DState) (e' : Option ECode)
    (hrun : sync_download cfg fuel ct ib chunks se fs0 un = some (s', e')) :
    traceEnd none s'.trace = some none ∧ s'.fileOpen = false :=
  sync_download_trace cfg fuel ct ib chunks se fs0 un s' e' hrun

/-- C5 at a concrete input: a rejected content type returns with an empty,
discipline-respecting trace. -/
theorem c5_write_handle_discipline_witness :
    traceEnd none s0W.trace = some none ∧ s0W.fileOpen = false :=
  c5_write_handle_discipline cfgW 1 (("text/plain").toList) [] [] ECode.eof [] []
    s0W (some ECode.invalidArgument) (by decide)

/-- C6 counterexample: with trailing parameters after the boundary parameter,
the extracted boundary is everything to the end of the content type, not the
parameter value `X`. -/
theorem c6_boundary_counterexample :
    extractBoundary (("multipart/form-data; boundary=X; charset=utf-8").toList)
      = some (("X; charset=utf-8").toList)
    ∧ extractBoundary (("multipart/form-data; boundary=X; charset=utf-8").toList)
      ≠ some ('X' :: []) := by
  exact ⟨by decide, by decide⟩

/-- C6 (amended): the extracted boundary is the entire suffix following the
first `boundary=` occurrence.  It equals the parameter value verbatim only
when nothing follows it; the unrestricted claim is refuted by the
counterexample. -/
theorem c6_boundary_amended (pre x2 : List Char)
    (h : findSubstr boundaryKey (pre ++ boundaryKey ++ x2) = some pre.length) :
    extractBoundary (pre ++ boundaryKey ++ x2) = some x2 := by
  unfold extractBoundary
  rw [h]
  simp only []
  have h2 : (pre ++ boundaryKey ++ x2).drop (pre.length + 9) = x2 := by
    have hform : pre ++ boundaryKey ++ x2 = (pre ++ boundaryKey) ++ x2 := by
      simp [List.append_assoc]
    rw [hform]
    refine append_drop_len _ _ _ ?_
    have hbk : boundaryKey.length = 9 := by decide
    simp only [List.length_append, hbk]
  rw [h2]

/-- C6 (amended) at a concrete input. -/
theorem c6_boundary_amended_witness :
    extractBoundary ((("multipart/form-data; ").toList) ++ boundaryKey ++ ('X' :: []))
      = some ('X' :: []) :=
  c6_boundary_amended (("multipart/form-data; ").toList) ('X' :: []) (by decide)

/-- C7: on a cap-hit (`not_found`) outcome while awaiting the body boundary,
the processor writes exactly `buffer_length - boundary_length` bytes to the
sink, consumes exactly those bytes, retains exactly `boundary_length`
trailing bytes in the buffer (written + retained = old buffer), stays in the
Body state and issues another read. -/
theorem c7_cap_hit_flush (cfg : Settings) (fuel bt : Nat) (s : DState)
    (hblen : s.boundary.length ≤ s.buffer.length) (hWb : s.buffer.length < W64) :
    (sync_process_file_body cfg (fuel + 1) (some ECode.notFound) bt s
      = match read_until cfg.packets_size s.boundary
          { s with
            fs := fsAppend s.fs s.file_path
              (s.buffer.take (s.buffer.length - s.boundary.length))
            buffer := s.buffer.drop (s.buffer.length - s.boundary.length)
            trace := s.trace ++ [Event.write s.file_path
              (s.buffer.take (s.buffer.length - s.boundary.length))] } with
        | (ec2, bt2, s2) => sync_process_file_body cfg fuel ec2 bt2 s2)
    ∧ (s.buffer.take (s.buffer.length - s.boundary.length)).length
        = s.buffer.length - s.boundary.length
    ∧ (s.buffer.drop (s.buffer.length - s.boundary.length)).length = s.boundary.length
    ∧ s.buffer.take (s.buffer.length - s.boundary.length)
        ++ s.buffer.drop (s.buffer.length - s.boundary.length) = s.buffer := by
  refine ⟨?_, ?_, ?_, List.take_append_drop _ _⟩
  · rw [sync_process_file_body.eq_2, if_pos rfl, sub64_eq hblen hWb]
  · simp only [List.length_take]
    omega
  · simp only [List.length_drop]
    omega

/-- C7 at a concrete input. -/
theorem c7_cap_hit_flush_witness :
    (sync_process_file_body cfgW (0 + 1) (some ECode.notFound) 0 c7sW
      = match read_until cfgW.packets_size c7sW.boundary
          { c7sW with
            fs := fsAppend c7sW.fs c7sW.file_path
              (c7sW.buffer.take (c7sW.buffer.length - c7sW.boundary.length))
            buffer := c7sW.buffer.drop (c7sW.buffer.length - c7sW.boundary.length)
            trace := c7sW.trace ++ [Event.write c7sW.file_path
              (c7sW.buffer.take (c7sW.buffer.length - c7sW.boundary.length))] } with
        | (ec2, bt2, s2) => sync_process_file_body cfgW 0 ec2 bt2 s2)
    ∧ (c7sW.buffer.take (c7sW.buffer.length - c7sW.boundary.length)).length
        = c7sW.buffer.length - c7sW.boundary.length
    ∧ (c7sW.buffer.drop (c7sW.buffer.length - c7sW.boundary.length)).length
        = c7sW.boundary.length
    ∧ c7sW.buffer.take (c7sW.buffer.length - c7sW.boundary.length)
        ++ c7sW.buffer.drop (c7sW.buffer.length - c7sW.boundary.length) = c7sW.buffer :=
  c7_cap_hit_flush cfgW 0 0 c7sW (by decide) (by decide)

/-- C8 counterexample: a complete single-part body whose closing delimiter is
followed by exactly `--`CRLF, delivered in two chunks split inside that
trailer.  The next bytes after the matched boundary are `--` followed by
CRLF, yet the parser does not reach Done: the epilogue test sees only `--`
in the buffer, transitions to the Header state, and the run ends with the
stream-end error instead of a clean completion. -/
theorem c8_epilogue_counterexample :
    (c8bytes1 ++ c8bytes2 = c2bytes1
      ∧ c2bytes1.drop (c2bytes1.length - 4) = epilogueMark)
    ∧ (sync_download cfgW 9 ctW [] [c8bytes1, c8bytes2] ECode.eof [] []).map
        (fun r => (r.1.output_file_paths, r.2))
      = some ([('.' :: '/' :: 'a' :: [])], some ECode.eof) := by
  refine ⟨⟨by decide, by decide⟩, ?_⟩
  rw [c8_run_split]
  decide

/-- C8 (amended): after a body boundary is matched and consumed, the decision
between Done and the Header state is made by comparing the entire remaining
buffer — not the next bytes of the stream — against `--`CRLF: the processor
returns with no error exactly when the buffer equals it, and otherwise reads
the next header.  The literal reading of the claim is refuted by the
counterexample. -/
theorem c8_epilogue_amended (cfg : Settings) (fuel bt : Nat) (s : DState) :
    ((bodyDoneState cfg bt s).buffer = epilogueMark →
      sync_process_file_body cfg (fuel + 1) none bt s
        = some (bodyDoneState cfg bt s, none))
    ∧ ((bodyDoneState cfg bt s).buffer ≠ epilogueMark →
      sync_process_file_body cfg (fuel + 1) none bt s
        = match read_until cfg.packets_size crlf2 (bodyDoneState cfg bt s) with
          | (ec2, bt2, s2) => sync_process_file_header cfg fuel ec2 bt2 s2) := by
  constructor
  · intro hep
    have hep2 : s.buffer.drop bt = epilogueMark := hep
    rw [sync_process_file_body.eq_3,
      if_neg (show ¬ ((none : Option ECode) = some ECode.notFound) by simp)]
    simp only []
    rw [if_pos hep2]
    rfl
  · intro hep
    have hep2 : ¬ s.buffer.drop bt = epilogueMark := hep
    rw [sync_process_file_body.eq_3,
      if_neg (show ¬ ((none : Option ECode) = some ECode.notFound) by simp)]
    simp only []
    rw [if_neg hep2]
    rfl

/-- C9: the collision policy of `generate_file_path`, in five parts.
(i) A free candidate `output_directory / file_name` is returned unchanged.
(ii) On a collision whose `(1)`-suffixed stem is free, the returned path is
the filename rewritten with `(1)` appended to the stem, keeping the
extension.  (iii) While the numbered candidate still exists, the numeral is
incremented in place and the loop continues.  (iv) An existence-oracle error
makes the whole resolution fail (surfaced as `bad_descriptor` by the header
processors).  (v) Concretely, when `./a.txt` is already on disk, a part named
`a.txt` resolves to `./a(1).txt`. -/
theorem c9_collision_policy :
    (∀ (fuel : Nat) (ex : List Char → Except Unit Bool) (dir name : List Char),
      ex (pathAppend dir name) = Except.ok false →
      generate_file_path fuel ex dir name = Except.ok (pathAppend dir name))
    ∧ (∀ (fuel : Nat) (ex : List Char → Except Unit Bool) (dir name : List Char),
        ex (pathAppend dir name) = Except.ok true →
        ex (pathReplaceFilename (pathAppend dir name)
            ((pathStem (pathAppend dir name) ++ '(' :: '1' :: ')' :: [])
              ++ pathExtension (pathAppend dir name))) = Except.ok false →
        generate_file_path (fuel + 1) ex dir name
          = Except.ok (pathReplaceFilename (pathAppend dir name)
              ((pathStem (pathAppend dir name) ++ '(' :: '1' :: ')' :: [])
                ++ pathExtension (pathAppend dir name))))
    ∧ (∀ (fuel : Nat) (ex : List Char → Except Unit Bool) (fp stem0 : List Char) (k : Nat),
        ex fp = Except.ok true →
        generate_file_path_go ex (fuel + 1) fp
            (stem0 ++ '(' :: ((Nat.repr k).toList ++ ')' :: [])) (stem0.length + 1) k
          = generate_file_path_go ex fuel
              (pathReplaceFilename fp
                ((stem0 ++ '(' :: ((Nat.repr (k + 1)).toList ++ ')' :: []))
                  ++ pathExtension fp))
              (stem0 ++ '(' :: ((Nat.repr (k + 1)).toList ++ ')' :: []))
              (stem0.length + 1) (k + 1))
    ∧ (∀ (fuel : Nat) (ex : List Char → Except Unit Bool) (dir name : List Char),
        ex (pathAppend dir name) = Except.error () →
        generate_file_path fuel ex dir name = Except.error ())
    ∧ resolve_file_path cfgW [(('.' :: '/' :: ("a.txt").toList), ("12345").toList)]
        (("a.txt").toList)
      = Except.ok ('.' :: '/' :: ("a(1).txt").toList) := by
  refine ⟨?_, ?_, ?_, ?_, by decide⟩
  · intro fuel ex dir name h
    exact generate_first_free fuel ex dir name h
  · intro fuel ex dir name h1 h2
    unfold generate_file_path
    simp only []
    rw [h1]
    rw [generate_file_path_go.eq_2]
    rw [h2]
  · intro fuel ex fp stem0 k h
    rw [generate_file_path_go.eq_2, h]
    simp only []
    rw [stringReplace_numeral]
  · intro fuel ex dir name h
    unfold generate_file_path
    simp only []
    rw [h]

/-- C10: the boundary-found branch computes its write length as
`bytes_transferred - boundary_length - 4` in wrapping `size_t` arithmetic
with no guard; whenever the matched read transferred at least
`boundary_length + 4` bytes, the wrapping subtraction agrees with exact
natural subtraction, the write length is at most `bytes_transferred`, the
branch taken by the processor is the one through `bodyDoneState`, and the
bytes appended to the sink are exactly the first
`bytes_transferred - boundary_length - 4` bytes of the buffer. -/
theorem c10_write_length_no_wrap (cfg : Settings) (fuel bt : Nat) (s : DState)
    (h4 : s.boundary.length + 4 ≤ bt) (hWb : bt < W64) :
    sub64 (sub64 bt s.boundary.length) 4 = bt - s.boundary.length - 4
    ∧ bt - s.boundary.length - 4 + (s.boundary.length + 4) = bt
    ∧ (sync_process_file_body cfg (fuel + 1) none bt s
        = if (bodyDoneState cfg bt s).buffer = epilogueMark
            then some (bodyDoneState cfg bt s, none)
            else match read_until cfg.packets_size crlf2 (bodyDoneState cfg bt s) with
              | (ec2, bt2, s2) => sync_process_file_header cfg fuel ec2 bt2 s2)
    ∧ (bodyDoneState cfg bt s).fs
        = fsAppend s.fs s.file_path (s.buffer.take (bt - s.boundary.length - 4)) := by
  refine ⟨sub64_chain h4 hWb, by omega, ?_, ?_⟩
  · rw [sync_process_file_body.eq_3,
      if_neg (show ¬ ((none : Option ECode) = some ECode.notFound) by simp)]
    simp only []
    rfl
  · show fsAppend s.fs s.file_path (s.buffer.take (sub64 (sub64 bt s.boundary.length) 4))
      = fsAppend s.fs s.file_path (s.buffer.take (bt - s.boundary.length - 4))
    rw [sub64_chain h4 hWb]

/-- C10 at a concrete input: a boundary match with 7 transferred bytes and a
2-byte boundary. -/
theorem c10_write_length_no_wrap_witness :
    sub64 (sub64 7 c4sW.boundary.length) 4 = 7 - c4sW.boundary.length - 4
    ∧ 7 - c4sW.boundary.length - 4 + (c4sW.boundary.length + 4) = 7
    ∧ (sync_process_file_body cfgW (0 + 1) none 7 c4sW
        = if (bodyDoneState cfgW 7 c4sW).buffer = epilogueMark
            then some (bodyDoneState cfgW 7 c4sW, none)
            else match read_until cfgW.packets_size crlf2 (bodyDoneState cfgW 7 c4sW) with
              | (ec2, bt2, s2) => sync_process_file_header cfgW 0 ec2 bt2 s2)
    ∧ (bodyDoneState cfgW 7 c4sW).fs
        = fsAppend c4sW.fs c4sW.file_path (c4sW.buffer.take (7 - c4sW.boundary.length - 4)) :=
  c10_write_length_no_wrap cfgW 0 7 c4sW (by decide) (by decide)

end MFD
